import Mathlib

/-!
Verification of the current-be synchronization engine.

The Python source is embedded shallowly over `Str := List Char`, which models
Python's `str` (a sequence of code points).  Pure functions of the source become
Lean functions; the database tables touched by an operation become explicit
state (`List OrderRow`, `List SuborderRow`) threaded through the operation; the
responses of the external tracker API become explicit inputs (`TrackerResp`).
-/

/-- Python strings, modelled as lists of code points. -/
abbrev Str := List Char

namespace CurrentBe

/-! ## Basic string helpers (Python / SQL semantics) -/

/-- Python truthiness of a string: the empty string is falsy. -/
def pyTruthy (s : Str) : Bool := !s.isEmpty

/-- Python `x or d` on an optional string: `None` and `""` fall through to `d`. -/
def pyOr (o : Option Str) (d : Str) : Str :=
  match o with
  | none => d
  | some s => if s.isEmpty then d else s

/-- Python truthiness filter on an optional string:
`none` and `some ""` become `none`. -/
def pyTruthyOpt (o : Option Str) : Option Str :=
  match o with
  | none => none
  | some s => if s.isEmpty then none else some s

/-- Whitespace for Python's `str.strip()` (and `\s` of the regex engines used). -/
def isWs (c : Char) : Bool :=
  c = ' ' || c = '\t' || c = '\n' || c = '\x0d' || c = '\x0b' || c = '\x0c'

/-- Python `s.strip()`: drop whitespace from both ends. -/
def pyStrip (s : Str) : Str :=
  ((s.dropWhile isWs).reverse.dropWhile isWs).reverse

/-- Python `s.strip("[]")`: drop `[` and `]` from both ends. -/
def stripBrackets (s : Str) : Str :=
  ((s.dropWhile (fun c => c = '[' || c = ']')).reverse.dropWhile
    (fun c => c = '[' || c = ']')).reverse

/-- SQL `TRIM(s)`: drop spaces (only) from both ends. -/
def trimSpaces (s : Str) : Str :=
  ((s.dropWhile (fun c => c = ' ')).reverse.dropWhile (fun c => c = ' ')).reverse

/-- Python `sep.join(parts)` / `", ".join(...)`. -/
def joinSep (sep : Str) : List Str → Str
  | [] => []
  | [x] => x
  | x :: y :: rest => x ++ sep ++ joinSep sep (y :: rest)

/-- Python `s.split(c)` for a one-character separator: always non-empty,
`"".split(c) = [""]`. -/
def splitOnChar (c : Char) : Str → List Str
  | [] => [[]]
  | x :: xs =>
    match splitOnChar c xs with
    | [] => [[]]
    | h :: t => if x = c then [] :: h :: t else (x :: h) :: t

/-- Split a string around the first occurrence of `pat` (`pat` assumed
non-empty at use sites): returns the part before and the part after it. -/
def splitFirst (pat : Str) : Str → Option (Str × Str)
  | [] => none
  | c :: cs =>
    if pat.isPrefixOf (c :: cs) then some ([], (c :: cs).drop pat.length)
    else (splitFirst pat cs).map (fun p => (c :: p.1, p.2))

/-- `pat` occurs somewhere in `s` (used for Python's `pat in s`). -/
def containsSub (pat s : Str) : Bool := (splitFirst pat s).isSome

/-! ## enums.py -/

/-- `REASON_DISPLAY` from enums.py, as a partial lookup (`dict` access). -/
def reasonDisplayGet (r : Str) : Option Str :=
  if r = "ACQUISITION".data then some ("Acquisition").data
  else if r = "DISPOSITION".data then some ("Disposition").data
  else if r = "MOVE_OUT".data then some ("Move-Out").data
  else if r = "EVICTION".data then some ("Eviction").data
  else if r = "ABANDONMENT".data then some ("Abandonment").data
  else if r = "ONBOARDING".data then some ("Onboarding").data
  else if r = "OTHER".data then some ("Other").data
  else none

/-- The `Reason` literal values of enums.py. -/
def reasonList : List Str :=
  [("ACQUISITION").data, ("DISPOSITION").data, ("MOVE_OUT").data, ("EVICTION").data,
   ("ABANDONMENT").data, ("ONBOARDING").data, ("OTHER").data]

/-- The `Utility` literal values of enums.py. -/
def utilityList : List Str :=
  [("ELECTRIC").data, ("GAS").data, ("WATER").data, ("SEWER").data, ("TRASH").data]

/-- The `SuborderStatus` literal values of enums.py. -/
def suborderStatusList : List Str :=
  [("TODO").data, ("IN_PROGRESS").data, ("BLOCKED_MANAGER").data, ("BLOCKED_PROVIDER").data,
   ("DONE").data, ("CANCELED").data, ("RETURNED").data]

/-- `UTILITY_ABBREV_MAP` from enums.py (`dict` access, `KeyError` as `none`). -/
def utilityAbbrevMap (c : Char) : Option Str :=
  if c = 'E' then some ("ELECTRIC").data
  else if c = 'G' then some ("GAS").data
  else if c = 'W' then some ("WATER").data
  else if c = 'T' then some ("TRASH").data
  else none

/-! ## Title grammar (main.py: create_order's suborder titles, parse_suborder_title) -/

/-- The letter the creation path writes for one utility:
`utility_abbrevs.get(utility, utility[0])` in create_order
(the dict holds ELECTRIC/GAS/WATER; anything else falls back to its
first character — Python `utility[0]`, here `take 1`, the enum values
being non-empty). -/
def utilityAbbrev (u : Str) : Str :=
  if u = "ELECTRIC".data then "E".data
  else if u = "GAS".data then "G".data
  else if u = "WATER".data then "W".data
  else u.take 1

/-- The suborder-title encoder of create_order, one letter per utility:
`f"Activate {abbrev} via {provider}"` (the creation path passes the
placeholder provider `"?"` and a single utility at a time; the general
form concatenates one letter per utility). -/
def encodeSuborderTitle (utilities : List Str) (provider : Str) : Str :=
  "Activate ".data ++ (utilities.map utilityAbbrev).flatten ++ " via ".data ++ provider

/-- A character the decoding regex's letter class `[EGW]` accepts. -/
def isEGW (c : Char) : Bool := c = 'E' || c = 'G' || c = 'W'

/-- `parse_suborder_title` from main.py:
`re.match(r'Activate ([EGW]+) via (.+)', title)`.
`re.match` anchors at the start only; `[EGW]+` is greedy and — since
`' via '` starts with a space, which `[EGW]` never matches — never needs to
backtrack, so it takes the maximal run of E/G/W letters; `(.+)` is greedy,
stops at a newline (no DOTALL) and must be non-empty.  On a match, each
letter is mapped through `UTILITY_ABBREV_MAP` (total on E/G/W). -/
def parseSuborderTitle (title : Str) : Option (List Str × Str) :=
  if ("Activate ").data.isPrefixOf title then
    let rest := title.drop 9
    let letters := rest.takeWhile isEGW
    let rest2 := rest.dropWhile isEGW
    if letters.isEmpty then none
    else if (" via ").data.isPrefixOf rest2 then
      let provider := (rest2.drop 5).takeWhile (fun c => c ≠ '\n')
      if provider.isEmpty then none
      else some (letters.map (fun c => (utilityAbbrevMap c).getD []), provider)
    else none
  else none

/-- `parse_scheduled_for` from main.py:
`re.search(r'scheduled_for:\s*(\d{4}-\d{2}-\d{2})', description)` —
find the first position where the literal `scheduled_for:` is followed by
optional whitespace and a `\d{4}-\d{2}-\d{2}` shape, and capture that date. -/
def matchDateShape (s : Str) : Option Str :=
  let body := s.dropWhile isWs
  let d := body.take 10
  if d.length = 10 ∧
      ((d.take 4).all Char.isDigit) ∧ d.get? 4 = some '-' ∧
      ((d.drop 5).take 2).all Char.isDigit ∧ d.get? 7 = some '-' ∧
      ((d.drop 8).all Char.isDigit) then
    some d
  else none

/-- Scan for the first `scheduled_for:` occurrence whose tail matches the
date shape; on failure continue at later occurrences (regex search
semantics).  Fuel-based recursion: every step drops at least the matched
literal, so `s.length` steps always suffice. -/
def parseScheduledForAux : Nat → Str → Option Str
  | 0, _ => none
  | fuel + 1, s =>
    match splitFirst ("scheduled_for:").data s with
    | none => none
    | some (_, rest) =>
      match matchDateShape rest with
      | some d => some d
      | none => parseScheduledForAux fuel rest

/-- `parse_scheduled_for` from main.py (also scripts/mirror_suborders_from_linear_to_db.py):
returns `none` on a falsy description, else regex-searches it. -/
def parseScheduledFor (description : Str) : Option Str :=
  if description.isEmpty then none
  else parseScheduledForAux (description.length + 1) description

/-- `parse_utilities` from main.py: `'[ELECTRIC, GAS]'` back to a list
(strip the bracket characters from both ends, split on commas, strip
whitespace from each part; empty inputs give `[]`). -/
def parseUtilities (utilitiesStr : Str) : List Str :=
  if utilitiesStr.isEmpty then []
  else
    let cleaned := stripBrackets utilitiesStr
    if cleaned.isEmpty then []
    else (splitOnChar ',' cleaned).map pyStrip

/-- The `f"[{', '.join(...)}]"` rendering used everywhere a utility list is
stored in the database. -/
def fmtUtilities (utilities : List Str) : Str :=
  '[' :: (joinSep (", ").data utilities ++ "]".data)

/-- `get_suborder_status` from enums.py. -/
def getSuborderStatus (stateName : Str) (labelNames : List Str) : Str :=
  if stateName = "Done".data then "DONE".data
  else if stateName = "Canceled".data then
    if ("Returned").data ∈ labelNames then "RETURNED".data else "CANCELED".data
  else if ("Blocked - Manager").data ∈ labelNames then "BLOCKED_MANAGER".data
  else if ("Blocked - Provider").data ∈ labelNames then "BLOCKED_PROVIDER".data
  else if stateName = "Todo".data then "TODO".data
  else if stateName = "In Progress".data then "IN_PROGRESS".data
  else "TODO".data

/-- The status-derivation rules exactly as the specification words them
(priority order: Done; Canceled with/without Returned; blocked labels;
Todo / In Progress; fallback TODO). -/
def deriveStatusSpec (stateName : Str) (labelNames : List Str) : Str :=
  if stateName = "Done".data then "DONE".data
  else if stateName = "Canceled".data then
    if ("Returned").data ∈ labelNames then "RETURNED".data else "CANCELED".data
  else if ("Blocked - Manager").data ∈ labelNames then "BLOCKED_MANAGER".data
  else if ("Blocked - Provider").data ∈ labelNames then "BLOCKED_PROVIDER".data
  else if stateName = "Todo".data then "TODO".data
  else if stateName = "In Progress".data then "IN_PROGRESS".data
  else "TODO".data

/-! ## Generic list lemmas used by the codec proofs -/

theorem takeWhile_eq_self {p : Char → Bool} {l : Str} (h : ∀ a ∈ l, p a = true) :
    l.takeWhile p = l := by
  induction l with
  | nil => rfl
  | cons a as ih =>
    rw [List.takeWhile_cons, h a (by simp), if_pos rfl]
    rw [ih (fun a ha => h a (by simp [ha]))]

theorem takeWhile_append_stop {p : Char → Bool} {l₁ : Str} {x : Char} {t : Str}
    (h₁ : ∀ a ∈ l₁, p a = true) (h₂ : p x = false) :
    (l₁ ++ x :: t).takeWhile p = l₁ := by
  induction l₁ with
  | nil => simp [List.takeWhile_cons, h₂]
  | cons a as ih =>
    rw [List.cons_append, List.takeWhile_cons, h₁ a (by simp), if_pos rfl,
      ih (fun a ha => h₁ a (by simp [ha]))]

theorem dropWhile_append_stop {p : Char → Bool} {l₁ : Str} {x : Char} {t : Str}
    (h₁ : ∀ a ∈ l₁, p a = true) (h₂ : p x = false) :
    (l₁ ++ x :: t).dropWhile p = x :: t := by
  induction l₁ with
  | nil => simp [List.dropWhile_cons, h₂]
  | cons a as ih =>
    rw [List.cons_append, List.dropWhile_cons, h₁ a (by simp), if_pos rfl,
      ih (fun a ha => h₁ a (by simp [ha]))]

theorem isPrefixOf_append_self (l t : Str) : l.isPrefixOf (l ++ t) = true := by
  rw [List.isPrefixOf_iff_prefix]
  exact List.prefix_append l t

/-- Decomposition of the letter block built by the encoder when every
utility is one of ELECTRIC / GAS / WATER: each contributes exactly its
one `[EGW]` letter and `UTILITY_ABBREV_MAP` takes the letters back. -/
theorem abbrev_letters_spec :
    ∀ us : List Str, (∀ u ∈ us, u ∈ [("ELECTRIC").data, ("GAS").data, ("WATER").data]) →
      (∀ c ∈ (us.map utilityAbbrev).flatten, isEGW c = true)
      ∧ ((us.map utilityAbbrev).flatten.map (fun c => (utilityAbbrevMap c).getD []) = us)
      ∧ ((us.map utilityAbbrev).flatten.length = us.length) := by
  intro us h
  induction us with
  | nil => exact ⟨by intro c hc; simp at hc, rfl, rfl⟩
  | cons u rest ih =>
    have hu : u ∈ [("ELECTRIC").data, ("GAS").data, ("WATER").data] := h u (by simp)
    have hrest := ih (fun v hv => h v (by simp [hv]))
    obtain ⟨a, ha1, ha2, ha3⟩ : ∃ a, utilityAbbrev u = [a] ∧ isEGW a = true
        ∧ (utilityAbbrevMap a).getD [] = u := by
      rcases (by simpa using hu : u = ("ELECTRIC").data ∨ u = ("GAS").data
          ∨ u = ("WATER").data) with h1 | h1 | h1 <;> subst h1
      · exact ⟨'E', rfl, rfl, rfl⟩
      · exact ⟨'G', rfl, rfl, rfl⟩
      · exact ⟨'W', rfl, rfl, rfl⟩
    refine ⟨?_, ?_, ?_⟩
    · intro c hc
      rw [List.map_cons, List.flatten_cons, ha1] at hc
      rcases (by simpa using hc : c = a ∨ c ∈ (rest.map utilityAbbrev).flatten) with
        h2 | h2
      · rw [h2]; exact ha2
      · exact hrest.1 c h2
    · rw [List.map_cons, List.flatten_cons, ha1, List.singleton_append, List.map_cons,
        ha3, hrest.2.1]
    · rw [List.map_cons, List.flatten_cons, ha1, List.singleton_append, List.length_cons,
        hrest.2.2, List.length_cons]

end CurrentBe

namespace CurrentBe

/-- Claim C3: `get_suborder_status` is total and returns exactly the status
given by the priority rules of the specification: Done wins over everything;
Canceled yields RETURNED when the Returned label is present, else CANCELED;
otherwise the blocked labels decide, then Todo / In Progress, and any
unrecognized state falls back to TODO. -/
theorem c3_derive_status_matches_spec :
    ∀ (stateName : Str) (labelNames : List Str),
      getSuborderStatus stateName labelNames = deriveStatusSpec stateName labelNames :=
  fun _ _ => rfl

end CurrentBe

namespace CurrentBe

/-- Claim C4 (counterexample): the claim asserts the round-trip for every
utility list the system encodes, but the creation-path encoder renders
TRASH as the fallback letter `T` (`utility[0]`), which the decoding regex
class `[EGW]` rejects, so decoding returns `none` instead of the encoded
pair. -/
theorem c4_title_roundtrip_counterexample :
    encodeSuborderTitle [("TRASH").data] (("?").data) = ("Activate T via ?").data
    ∧ parseSuborderTitle (encodeSuborderTitle [("TRASH").data] (("?").data)) = none
    ∧ parseSuborderTitle (encodeSuborderTitle [("TRASH").data] (("?").data))
        ≠ some ([("TRASH").data], ("?").data) := by
  refine ⟨by decide, by decide, by decide⟩

/-- Claim C4 (amended): for every non-empty utility list drawn from
ELECTRIC / GAS / WATER (the utilities the letter grammar can represent)
and every non-empty newline-free provider — in particular the creation
placeholder `?` — decoding the encoded title returns exactly the encoded
pair; and strings deviating from the grammar (no `Activate`, missing
`via`, empty provider, a letter outside E/G/W) decode to `none`. -/
theorem c4_title_roundtrip_amended :
    (∀ (us : List Str) (provider : Str),
        us ≠ [] →
        (∀ u ∈ us, u ∈ [("ELECTRIC").data, ("GAS").data, ("WATER").data]) →
        provider ≠ [] →
        (∀ c ∈ provider, c ≠ '\n') →
        parseSuborderTitle (encodeSuborderTitle us provider) = some (us, provider))
    ∧ parseSuborderTitle (("Fix the fence").data) = none
    ∧ parseSuborderTitle (("Activate EG Xcel Energy").data) = none
    ∧ parseSuborderTitle (("Activate EG via ").data) = none
    ∧ parseSuborderTitle (("Activate X via Provider").data) = none := by
  refine ⟨?_, by decide, by decide, by decide, by decide⟩
  intro us provider hne hmem hpne hpnl
  obtain ⟨hall, hmap, hlen⟩ := abbrev_letters_spec us hmem
  set L := (us.map utilityAbbrev).flatten with hL
  have henc : encodeSuborderTitle us provider
      = "Activate ".data ++ (L ++ (' ' :: (("via ").data ++ provider))) := by
    simp [encodeSuborderTitle, hL]
  have hdrop : ("Activate ".data ++ (L ++ (' ' :: (("via ").data ++ provider)))).drop 9
      = L ++ (' ' :: (("via ").data ++ provider)) := by
    have h9 : 9 = ("Activate ").data.length := rfl
    rw [h9, List.drop_left]
  have htw : (L ++ (' ' :: (("via ").data ++ provider))).takeWhile isEGW = L :=
    takeWhile_append_stop hall rfl
  have hdw : (L ++ (' ' :: (("via ").data ++ provider))).dropWhile isEGW
      = ' ' :: (("via ").data ++ provider) := dropWhile_append_stop hall rfl
  have hLne : L.isEmpty = false := by
    cases hL' : L with
    | nil =>
      exfalso
      rw [hL'] at hlen
      cases us with
      | nil => exact hne rfl
      | cons u rest => simp at hlen
    | cons c cs => rfl
  have hvia : (' ' :: (("via ").data ++ provider)) = (" via ").data ++ provider := rfl
  have hdrop5 : ((" via ").data ++ provider).drop 5 = provider := by
    have h5 : 5 = (" via ").data.length := rfl
    rw [h5, List.drop_left]
  have hprovtw : provider.takeWhile (fun c => decide (c ≠ '\n')) = provider :=
    takeWhile_eq_self (fun a ha => by simp [hpnl a ha])
  have hpne' : provider.isEmpty = false := by
    cases provider with
    | nil => exact absurd rfl hpne
    | cons c cs => rfl
  rw [henc]
  simp only [parseSuborderTitle]
  rw [isPrefixOf_append_self]
  simp only [if_true]
  rw [hdrop, htw, hdw, hLne, hvia, isPrefixOf_append_self, hdrop5, hprovtw, hpne', hmap]
  simp

end CurrentBe

namespace CurrentBe

/-- Witness for C4 (amended): the round-trip evaluated at
`(["ELECTRIC", "GAS"], "Xcel Energy")`. -/
theorem c4_title_roundtrip_amended_witness :
    parseSuborderTitle
        (encodeSuborderTitle [("ELECTRIC").data, ("GAS").data] (("Xcel Energy").data))
      = some ([("ELECTRIC").data, ("GAS").data], ("Xcel Energy").data) :=
  c4_title_roundtrip_amended.1 [("ELECTRIC").data, ("GAS").data] (("Xcel Energy").data)
    (by decide) (by decide) (by decide) (by decide)

end CurrentBe

namespace CurrentBe

/-! ## Webhook ingestion pipeline (main.py: linear_webhook) -/

/-- `SUBORDERS_PROJECT_ID` from main.py (same constant in the scripts). -/
def subordersProjectId : Str := ("d5abf424-7d87-450b-b722-d08dc67a7105").data

/-- One row of `portal.suborder` (primary key `linear_id`). -/
structure SuborderRow where
  linear_id : Str
  order_linear_id : Option Str
  utilities : Str
  provider : Str
  scheduled_for : Option Str
  status : Str
deriving DecidableEq

/-- The fields of an inbound webhook payload's `data` object that the
handler reads.  `parent` models `data.get("parent", {}).get("id")` collapsed
through Python truthiness of the parent object (`none` when the parent
object is absent / `None` / `{}`); `stateName` models `state.get("name")`
when a truthy state object with a name is present; `labelNames` models the
computed `[l.get("name", "") for l in labels] if labels else []`. -/
structure WebhookData where
  id : Str
  projectId : Option Str
  title : Str
  description : Str
  parent : Option Str
  stateName : Option Str
  labelNames : List Str
deriving DecidableEq

/-- An inbound webhook event: `{type, action, data}`. -/
structure WebhookEvent where
  eventType : Option Str
  action : Option Str
  data : WebhookData
deriving DecidableEq

/-- The structured outcome the handler returns. -/
inductive WebhookOutcome where
  | ignored (reason : Str)
  | deleted
  | upserted
deriving DecidableEq

/-- `SELECT ... FROM portal.suborder WHERE linear_id = %s` + `fetchone`. -/
def lookupSuborder (db : List SuborderRow) (k : Str) : Option SuborderRow :=
  db.find? (fun r => r.linear_id = k)

/-- `DELETE FROM portal.suborder WHERE linear_id = %s`. -/
def deleteSuborder (db : List SuborderRow) (k : Str) : List SuborderRow :=
  db.filter (fun r => ¬ r.linear_id = k)

/-- `INSERT ... ON CONFLICT (linear_id) DO UPDATE SET <all projected fields>`:
replace the row with the key when present, else append. -/
def upsertSuborder (db : List SuborderRow) (row : SuborderRow) : List SuborderRow :=
  if db.any (fun r => r.linear_id = row.linear_id) then
    db.map (fun r => if r.linear_id = row.linear_id then row else r)
  else db ++ [row]

/-- Parent resolution of linear_webhook: the inbound parent reference if
truthy, else the `order_linear_id` previously stored for this issue. -/
def resolveParent (ev : WebhookEvent) (db : List SuborderRow) : Option Str :=
  match pyTruthyOpt ev.data.parent with
  | some p => some p
  | none =>
    match lookupSuborder db ev.data.id with
    | some row => row.order_linear_id
    | none => none

/-- `linear_webhook` from main.py, as a state transformer on the
`portal.suborder` table (the event filters, the delete branch, parent
resolution with database fallback, title decoding, status derivation,
`scheduled_for` extraction, and the keyed upsert). -/
def linearWebhook (ev : WebhookEvent) (db : List SuborderRow) :
    WebhookOutcome × List SuborderRow :=
  if ev.eventType ≠ some ("Issue").data then (.ignored ("not an Issue event").data, db)
  else if ev.data.projectId ≠ some subordersProjectId then
    (.ignored ("not a suborder issue").data, db)
  else if ev.action = some ("remove").data then (.deleted, deleteSuborder db ev.data.id)
  else
    match pyTruthyOpt (resolveParent ev db) with
    | none => (.ignored ("no parent issue").data, db)
    | some p =>
      match parseSuborderTitle ev.data.title with
      | none =>
        (.ignored ("title format invalid - expected Activate EGW via Provider").data, db)
      | some (us, prov) =>
        let stateName := ev.data.stateName.getD (("Todo").data)
        let row : SuborderRow :=
          { linear_id := ev.data.id
            order_linear_id := some p
            utilities := fmtUtilities us
            provider := prov
            scheduled_for := parseScheduledFor ev.data.description
            status := getSuborderStatus stateName ev.data.labelNames }
        (.upserted, upsertSuborder db row)

/-! ### Lemmas about the table primitives -/

theorem map_eq_self {f : SuborderRow → SuborderRow} {l : List SuborderRow}
    (h : ∀ x ∈ l, f x = x) : l.map f = l := by
  induction l with
  | nil => rfl
  | cons a as ih => rw [List.map_cons, h a (by simp), ih (fun x hx => h x (by simp [hx]))]

theorem map_idem {f : SuborderRow → SuborderRow} (h : ∀ x, f (f x) = f x)
    (l : List SuborderRow) : (l.map f).map f = l.map f := by
  rw [List.map_map]
  exact List.map_congr_left (fun x _ => h x)

theorem filter_idem {p : SuborderRow → Bool} (l : List SuborderRow) :
    (l.filter p).filter p = l.filter p := by
  rw [List.filter_filter]
  exact List.filter_congr (fun x _ => by cases hp : p x <;> simp [hp])

theorem lookup_upsert (db : List SuborderRow) (row : SuborderRow) :
    lookupSuborder (upsertSuborder db row) row.linear_id = some row := by
  unfold upsertSuborder
  by_cases h : db.any (fun r => decide (r.linear_id = row.linear_id)) = true
  · rw [if_pos h]
    induction db with
    | nil => simp at h
    | cons a as ih =>
      by_cases ha : a.linear_id = row.linear_id
      · simp [lookupSuborder, List.find?, ha]
      · have h' : as.any (fun r => decide (r.linear_id = row.linear_id)) = true := by
          simp only [List.any_cons] at h
          rcases Bool.or_eq_true_iff.mp h with h1 | h1
          · exact absurd (of_decide_eq_true h1) ha
          · exact h1
        simp only [List.map_cons, if_neg ha, lookupSuborder, List.find?]
        rw [decide_eq_false ha]
        exact ih h'
  · rw [if_neg h]
    have hnone : lookupSuborder db row.linear_id = none := by
      unfold lookupSuborder
      rw [List.find?_eq_none]
      intro x hx
      simp only [List.any_eq_true, not_exists, not_and] at h
      simp [h x hx]
    unfold lookupSuborder at hnone ⊢
    rw [List.find?_append, hnone]
    simp [List.find?]

theorem upsert_idem (db : List SuborderRow) (row : SuborderRow) :
    upsertSuborder (upsertSuborder db row) row = upsertSuborder db row := by
  unfold upsertSuborder
  by_cases h : db.any (fun r => decide (r.linear_id = row.linear_id)) = true
  · rw [if_pos h]
    have h2 : (db.map (fun r => if r.linear_id = row.linear_id then row else r)).any
        (fun r => decide (r.linear_id = row.linear_id)) = true := by
      rcases List.any_eq_true.mp h with ⟨x, hx, hpx⟩
      refine List.any_eq_true.mpr ⟨row, ?_, by simp⟩
      refine List.mem_map.mpr ⟨x, hx, ?_⟩
      rw [if_pos (of_decide_eq_true hpx)]
    rw [if_pos h2]
    exact map_idem (fun x => by by_cases hx : x.linear_id = row.linear_id <;> simp [hx]) db
  · rw [if_neg h]
    have h2 : (db ++ [row]).any (fun r => decide (r.linear_id = row.linear_id)) = true := by
      refine List.any_eq_true.mpr ⟨row, by simp, by simp⟩
    rw [if_pos h2]
    rw [List.map_append]
    have hdb : db.map (fun r => if r.linear_id = row.linear_id then row else r) = db := by
      refine map_eq_self (fun x hx => ?_)
      simp only [List.any_eq_true, not_exists, not_and] at h
      have := h x hx
      rw [if_neg (by simpa using this)]
    rw [hdb]
    simp

end CurrentBe

namespace CurrentBe

theorem pyTruthyOpt_some_imp {o : Option Str} {p : Str} (h : pyTruthyOpt o = some p) :
    p.isEmpty = false := by
  cases o with
  | none => simp [pyTruthyOpt] at h
  | some s =>
    by_cases hs : s.isEmpty = true
    · simp [pyTruthyOpt, hs] at h
    · simp [pyTruthyOpt, hs] at h
      rw [← h]
      simpa using hs

theorem pyTruthyOpt_some_self {p : Str} (h : p.isEmpty = false) :
    pyTruthyOpt (some p) = some p := by
  simp [pyTruthyOpt, h]

/-- Rows per key in the suborder table. -/
def countKey (db : List SuborderRow) (k : Str) : Nat :=
  (db.filter (fun r => r.linear_id = k)).length

theorem countKey_delete_le (db : List SuborderRow) (i k : Str) :
    countKey (deleteSuborder db i) k ≤ countKey db k := by
  unfold countKey deleteSuborder
  exact List.Sublist.length_le (List.Sublist.filter _ (List.filter_sublist db))

theorem countKey_map_key_preserving {f : SuborderRow → SuborderRow}
    (hf : ∀ r, (f r).linear_id = r.linear_id) (db : List SuborderRow) (k : Str) :
    countKey (db.map f) k = countKey db k := by
  unfold countKey
  induction db with
  | nil => rfl
  | cons a as ih =>
    rw [List.map_cons, List.filter_cons, List.filter_cons]
    have : (decide ((f a).linear_id = k)) = (decide (a.linear_id = k)) := by rw [hf a]
    rw [this]
    cases hd : decide (a.linear_id = k) <;> simp [ih]

theorem countKey_upsert_le_one (db : List SuborderRow) (row : SuborderRow)
    (h : ∀ k, countKey db k ≤ 1) : ∀ k, countKey (upsertSuborder db row) k ≤ 1 := by
  intro k
  unfold upsertSuborder
  by_cases hany : db.any (fun r => decide (r.linear_id = row.linear_id)) = true
  · rw [if_pos hany]
    rw [countKey_map_key_preserving
      (fun r => by by_cases hr : r.linear_id = row.linear_id <;> simp [hr]) db k]
    exact h k
  · rw [if_neg hany]
    unfold countKey
    rw [List.filter_append, List.length_append]
    by_cases hk : row.linear_id = k
    · have hzero : (db.filter (fun r => r.linear_id = k)).length = 0 := by
        rw [List.length_eq_zero, List.filter_eq_nil_iff]
        intro x hx
        simp only [List.any_eq_true, not_exists, not_and] at hany
        have := hany x hx
        simp only [decide_eq_true_eq] at this ⊢
        rw [← hk]
        exact this
      rw [hzero]
      simp [hk]
    · have : ([row].filter (fun r => r.linear_id = k)).length = 0 := by
        simp [List.filter, hk]
      rw [this]
      have := h k
      unfold countKey at this
      omega

end CurrentBe

namespace CurrentBe

theorem pyTruthyOpt_none : pyTruthyOpt none = none := rfl

theorem delete_idem (db : List SuborderRow) (k : Str) :
    deleteSuborder (deleteSuborder db k) k = deleteSuborder db k := by
  unfold deleteSuborder
  exact filter_idem db

/-- The suborder table after `linear_webhook` is unchanged, a keyed delete,
or a keyed upsert of a row whose status came from `get_suborder_status`. -/
theorem linearWebhook_cases (ev : WebhookEvent) (db : List SuborderRow) :
    (linearWebhook ev db).2 = db
    ∨ (linearWebhook ev db).2 = deleteSuborder db ev.data.id
    ∨ (∃ row : SuborderRow, (linearWebhook ev db).2 = upsertSuborder db row
        ∧ row.linear_id = ev.data.id
        ∧ row.status
            = getSuborderStatus (ev.data.stateName.getD (("Todo").data)) ev.data.labelNames) := by
  by_cases h1 : ev.eventType = some ("Issue").data
  · by_cases h2 : ev.data.projectId = some subordersProjectId
    · by_cases h3 : ev.action = some ("remove").data
      · refine Or.inr (Or.inl ?_)
        simp [linearWebhook, h1, h2, h3]
      · cases hres : pyTruthyOpt (resolveParent ev db) with
        | none =>
          refine Or.inl ?_
          simp [linearWebhook, h1, h2, h3, hres]
        | some p =>
          cases hparse : parseSuborderTitle ev.data.title with
          | none =>
            refine Or.inl ?_
            simp [linearWebhook, h1, h2, h3, hres, hparse]
          | some pr =>
            have hrow : (linearWebhook ev db).2 = upsertSuborder db
                { linear_id := ev.data.id, order_linear_id := some p,
                  utilities := fmtUtilities pr.1, provider := pr.2,
                  scheduled_for := parseScheduledFor ev.data.description,
                  status := getSuborderStatus (ev.data.stateName.getD (("Todo").data))
                    ev.data.labelNames } := by
              simp [linearWebhook, h1, h2, h3, hres, hparse]
            exact Or.inr (Or.inr ⟨_, hrow, rfl, rfl⟩)
    · exact Or.inl (by simp [linearWebhook, h1, h2])
  · exact Or.inl (by simp [linearWebhook, h1])

theorem webhook_table_idem (ev : WebhookEvent) (db : List SuborderRow) :
    (linearWebhook ev (linearWebhook ev db).2).2 = (linearWebhook ev db).2 := by
  by_cases h1 : ev.eventType = some ("Issue").data
  · by_cases h2 : ev.data.projectId = some subordersProjectId
    · by_cases h3 : ev.action = some ("remove").data
      · simp [linearWebhook, h1, h2, h3, delete_idem]
      · cases hpar : pyTruthyOpt ev.data.parent with
        | some p =>
          have hps := pyTruthyOpt_some_self (pyTruthyOpt_some_imp hpar)
          cases hparse : parseSuborderTitle ev.data.title with
          | none =>
            simp [linearWebhook, h1, h2, h3, resolveParent, hpar, hparse, hps]
          | some pr =>
            simp [linearWebhook, h1, h2, h3, resolveParent, hpar, hparse, hps]
            exact upsert_idem db _
        | none =>
          cases hlook : lookupSuborder db ev.data.id with
          | none =>
            simp [linearWebhook, h1, h2, h3, resolveParent, hpar, hlook, pyTruthyOpt_none]
          | some row0 =>
            cases hpt : pyTruthyOpt row0.order_linear_id with
            | none =>
              simp [linearWebhook, h1, h2, h3, resolveParent, hpar, hlook, hpt,
                pyTruthyOpt_none]
            | some p =>
              have hps := pyTruthyOpt_some_self (pyTruthyOpt_some_imp hpt)
              cases hparse : parseSuborderTitle ev.data.title with
              | none =>
                simp [linearWebhook, h1, h2, h3, resolveParent, hpar, hlook, hpt, hparse,
                  hps]
              | some pr =>
                have hlook2 := lookup_upsert db
                  { linear_id := ev.data.id
                    order_linear_id := some p
                    utilities := fmtUtilities pr.1
                    provider := pr.2
                    scheduled_for := parseScheduledFor ev.data.description
                    status := getSuborderStatus (ev.data.stateName.getD (("Todo").data))
                      ev.data.labelNames }
                simp [linearWebhook, h1, h2, h3, resolveParent, hpar, hlook, hpt, hparse,
                  hlook2, hps]
                exact upsert_idem db _
    · simp [linearWebhook, h1, h2]
  · simp [linearWebhook, h1]

theorem webhook_remove_deletes (ev : WebhookEvent) (db : List SuborderRow)
    (h1 : ev.eventType = some ("Issue").data)
    (h2 : ev.data.projectId = some subordersProjectId)
    (h3 : ev.action = some ("remove").data) :
    ∀ r ∈ (linearWebhook ev db).2, ¬ r.linear_id = ev.data.id := by
  intro r hr
  have hdel : (linearWebhook ev db).2 = deleteSuborder db ev.data.id := by
    simp [linearWebhook, h1, h2, h3]
  rw [hdel] at hr
  simp [deleteSuborder] at hr
  exact hr.2

theorem webhook_preserves_unique (ev : WebhookEvent) (db : List SuborderRow)
    (h : ∀ k, countKey db k ≤ 1) : ∀ k, countKey (linearWebhook ev db).2 k ≤ 1 := by
  intro k
  rcases linearWebhook_cases ev db with hc | hc | ⟨row, hc, _, _⟩
  · rw [hc]; exact h k
  · rw [hc]; exact le_trans (countKey_delete_le db ev.data.id k) (h k)
  · rw [hc]; exact countKey_upsert_le_one db row h k

end CurrentBe

namespace CurrentBe

/-- Claim C2: webhook processing is idempotent on the suborder table — for
every inbound event, processing it a second time leaves the table exactly as
after the first processing; a `remove` event in the suborders collection
leaves zero rows for that id after either delivery (deleting a nonexistent
row succeeds as a no-op); and processing never creates a duplicate row per
`external_ref` key. -/
theorem c2_webhook_idempotent :
    ∀ (ev : WebhookEvent) (db : List SuborderRow),
      ((linearWebhook ev (linearWebhook ev db).2).2 = (linearWebhook ev db).2)
      ∧ (ev.eventType = some ("Issue").data →
          ev.data.projectId = some subordersProjectId →
          ev.action = some ("remove").data →
          ∀ r ∈ (linearWebhook ev db).2, ¬ r.linear_id = ev.data.id)
      ∧ ((∀ k, countKey db k ≤ 1) → ∀ k, countKey (linearWebhook ev db).2 k ≤ 1) :=
  fun ev db =>
    ⟨webhook_table_idem ev db,
     fun h1 h2 h3 => webhook_remove_deletes ev db h1 h2 h3,
     fun h => webhook_preserves_unique ev db h⟩

/-- A concrete `remove` delivery for the C2 witness. -/
def c2SampleEvent : WebhookEvent :=
  { eventType := some ("Issue").data
    action := some ("remove").data
    data :=
      { id := ("sub-1").data
        projectId := some subordersProjectId
        title := ("Activate E via ?").data
        description := []
        parent := none
        stateName := none
        labelNames := [] } }

/-- Two stored rows for the C2 witness, one of them matching the delivery. -/
def c2SampleRowA : SuborderRow :=
  { linear_id := ("sub-1").data, order_linear_id := some (("ord-1").data),
    utilities := ("[ELECTRIC]").data, provider := ("?").data, scheduled_for := none,
    status := ("TODO").data }

def c2SampleRowB : SuborderRow :=
  { linear_id := ("sub-2").data, order_linear_id := some (("ord-1").data),
    utilities := ("[GAS]").data, provider := ("?").data, scheduled_for := none,
    status := ("TODO").data }

def c2SampleDb : List SuborderRow := [c2SampleRowA, c2SampleRowB]

/-- Witness for C2 at the concrete remove delivery: double processing is a
no-op over single processing, the surviving row is not the deleted key, and
per-key uniqueness is preserved. -/
theorem c2_webhook_idempotent_witness :
    ((linearWebhook c2SampleEvent (linearWebhook c2SampleEvent c2SampleDb).2).2
        = (linearWebhook c2SampleEvent c2SampleDb).2)
    ∧ ¬ c2SampleRowB.linear_id = c2SampleEvent.data.id
    ∧ countKey (linearWebhook c2SampleEvent c2SampleDb).2 (("sub-2").data) ≤ 1 := by
  have huniq : ∀ k, countKey c2SampleDb k ≤ 1 := by
    intro k
    by_cases hA : (("sub-1").data : Str) = k
    · rw [← hA]; decide
    · by_cases hB : (("sub-2").data : Str) = k
      · rw [← hB]; decide
      · have hz : countKey c2SampleDb k = 0 := by
          have h1 : ¬ c2SampleRowA.linear_id = k := by simpa [c2SampleRowA] using hA
          have h2 : ¬ c2SampleRowB.linear_id = k := by simpa [c2SampleRowB] using hB
          simp [countKey, c2SampleDb, List.filter, h1, h2]
        omega
  refine ⟨(c2_webhook_idempotent c2SampleEvent c2SampleDb).1, ?_, ?_⟩
  · exact (c2_webhook_idempotent c2SampleEvent c2SampleDb).2.1 rfl rfl rfl c2SampleRowB
      (by decide)
  · exact (c2_webhook_idempotent c2SampleEvent c2SampleDb).2.2 huniq (("sub-2").data)

/-- Claim C6: an update event in the suborders collection that carries no
parent reference, for an id with no row on file, yields the `ignored`
("no parent issue") outcome and leaves the table untouched — no orphan row
is ever written. -/
theorem c6_orphan_ignored :
    ∀ (ev : WebhookEvent) (db : List SuborderRow),
      ev.eventType = some ("Issue").data →
      ev.data.projectId = some subordersProjectId →
      ¬ ev.action = some ("remove").data →
      ev.data.parent = none →
      lookupSuborder db ev.data.id = none →
      linearWebhook ev db = (.ignored (("no parent issue").data), db) := by
  intro ev db h1 h2 h3 hpar hlook
  simp [linearWebhook, h1, h2, h3, resolveParent, hpar, hlook, pyTruthyOpt_none]

/-- A concrete orphan update delivery for the C6 witness. -/
def c6SampleEvent : WebhookEvent :=
  { eventType := some ("Issue").data
    action := some ("update").data
    data :=
      { id := ("sub-9").data
        projectId := some subordersProjectId
        title := ("Activate E via ?").data
        description := []
        parent := none
        stateName := none
        labelNames := [] } }

/-- Witness for C6: the concrete orphan update against an empty table is
ignored and writes nothing. -/
theorem c6_orphan_ignored_witness :
    linearWebhook c6SampleEvent [] = (.ignored (("no parent issue").data), []) :=
  c6_orphan_ignored c6SampleEvent [] rfl rfl (by decide) rfl rfl

end CurrentBe

namespace CurrentBe

/-! ## Order creation (main.py: create_order) and the description builders -/

/-- The dictionary `get_property_details` returns (the fields
`build_linear_description` reads).  Values that Python renders through
`x or 'N/A'` / truthiness are optional strings here. -/
structure PropDetails where
  propify_id : Str
  code : Str
  street : Str
  city : Str
  state : Str
  zip : Str
  lat : Option Str
  lng : Option Str
  county : Option Str
  status : Option Str
  type : Option Str
  year_built : Option Str
  acquisition_date : Option Str
  occupancy : Option Str
deriving DecidableEq

/-- One utility record of `get_property_utilities` (all fields already
string-rendered, as that function does). -/
structure UtilRec where
  type : Str
  vendor_name : Str
  vendor_contact : Str
  account_name : Str
  account_number : Str
  responsible_party : Str
  status : Str
  active : Str
  start_date : Str
  stop_date : Str
deriving DecidableEq

def utilTableHeader : Str :=
  ("| Type | Vendor | Vendor Contact | Account Name | Account # | Responsible Party | Status | Active | Start Date | Stop Date |\n").data

def utilTableDivider : Str :=
  ("|------|--------|----------------|--------------|-----------|-------------------|--------|--------|------------|----------|\n").data

/-- `make_row` inside `build_utilities_table`. -/
def utilRowLine (u : UtilRec) : Str :=
  ("| ").data ++ u.type ++ (" | ").data ++ u.vendor_name ++ (" | ").data ++ u.vendor_contact
    ++ (" | ").data ++ u.account_name ++ (" | ").data ++ u.account_number ++ (" | ").data
    ++ u.responsible_party ++ (" | ").data ++ u.status ++ (" | ").data ++ u.active
    ++ (" | ").data ++ u.start_date ++ (" | ").data ++ u.stop_date ++ (" |\n").data

/-- `build_utilities_table` from main.py. -/
def buildUtilitiesTable (utilities : List UtilRec) : Str :=
  if utilities.isEmpty then []
  else
    let electric := utilities.filter (fun u => u.type = ("ELECTRICITY").data)
    let gas := utilities.filter (fun u => u.type = ("GAS").data)
    let other := utilities.filter
      (fun u => ¬ (u.type = ("ELECTRICITY").data ∨ u.type = ("GAS").data))
    (if electric.isEmpty then []
     else ("\n\n**Electric**\n\n").data ++ utilTableHeader ++ utilTableDivider
       ++ (electric.map utilRowLine).flatten)
    ++ (if gas.isEmpty then []
        else ("\n\n**Gas**\n\n").data ++ utilTableHeader ++ utilTableDivider
          ++ (gas.map utilRowLine).flatten)
    ++ (if other.isEmpty then []
        else ("\n\n**Water / Sewer / Trash**\n\n").data ++ utilTableHeader ++ utilTableDivider
          ++ (other.map utilRowLine).flatten)

/-- `build_linear_description` from main.py: property details plus the
utilities tables.  This is the description the creation path puts on the
mirrored issue. -/
def buildLinearDescriptionMain (prop : PropDetails) (utilities : List UtilRec) : Str :=
  let address := prop.street ++ (", ").data ++ prop.city ++ (", ").data ++ prop.state
    ++ (" ").data ++ prop.zip
  let location :=
    match pyTruthyOpt prop.lat, pyTruthyOpt prop.lng with
    | some la, some ln => la ++ (", ").data ++ ln
    | _, _ => ("N/A").data
  let url := ("https://admin.propify.com/properties/").data ++ prop.propify_id
  let lines := [("### Property\n").data,
    ("- **Propify URL**: ").data ++ url,
    ("- **Address**: ").data ++ address,
    ("- **Location**: ").data ++ location,
    ("- **County**: ").data ++ pyOr prop.county (("N/A").data),
    ("- **Code**: ").data ++ prop.code,
    ("- **Status**: ").data ++ pyOr prop.status (("N/A").data),
    ("- **Type**: ").data ++ pyOr prop.type (("N/A").data),
    ("- **Year Built**: ").data ++ pyOr prop.year_built (("N/A").data),
    ("- **Acquisition Date**: ").data ++ pyOr prop.acquisition_date (("N/A").data),
    ("- **Occupancy**: ").data ++ pyOr prop.occupancy (("N/A").data)]
  let description := joinSep ("\n").data lines
  if utilities.isEmpty then description
  else description ++ ("\n\n### Utilities").data ++ buildUtilitiesTable utilities

/-- `build_order_metadata_comment` from main.py: the `**Order Metadata**`
fenced block attached as a comment (absent `requested_for` renders as
`ASAP`, absent `special_instructions` as `null`). -/
def buildOrderMetadataComment (orderId yardiId : Str) (utilities : List Str) (reason : Str)
    (requestedAt : Str) (requestedFor specialInstructions : Option Str) : Str :=
  ("+++ **Order Metadata**\n\n```\norder_id: ").data ++ orderId
    ++ ("\nyardi_id: ").data ++ yardiId
    ++ ("\nrequested_at: ").data ++ requestedAt
    ++ ("\nutilities: [").data ++ joinSep (", ").data utilities ++ ("]").data
    ++ ("\nrequested_for: ").data ++ pyOr requestedFor (("ASAP").data)
    ++ ("\nreason: ").data ++ reason
    ++ ("\nspecial_instructions: ").data ++ pyOr specialInstructions (("null").data)
    ++ ("\n```\n\n+++").data

/-- `build_suborder_data_block` from main.py (constant). -/
def buildSuborderDataBlock : Str :=
  ("+++ **Suborder Data**\n\n```\nscheduled_for:\naccount_number:\ndeposit_paid:\ndeposit_amount:\ndeposit_confirmation_number:\n```\n\n+++").data

/-- The order title both create_order and update_order compose:
`f"[{street}] {REASON_DISPLAY[order.reason]} ({util_abbrev})"` with one
first-letter abbreviation per utility (`u[0]`).  The `REASON_DISPLAY[...]`
dict access only happens with a validated `Reason`, so the `getD []`
default is unreachable on the paths the code runs. -/
def mkOrderTitle (street : Str) (reason : Str) (utilities : List Str) : Str :=
  ("[").data ++ street ++ ("] ").data ++ ((reasonDisplayGet reason).getD [])
    ++ (" (").data ++ (utilities.map (fun u => u.take 1)).flatten ++ (")").data

/-- A tracker GraphQL response: an error payload (`errors` present, with the
first error's optional `message`) or a success payload carrying the created
issue's optional id. -/
inductive TrackerResp where
  | errs (msg : Option Str)
  | ok (issueId : Option Str)
deriving DecidableEq

/-- One row of `portal."order"`. -/
structure OrderRow where
  id : Str
  linear_id : Option Str
  yardi_id : Str
  utilities : Str
  reason : Str
  requested_at : Str
  requested_for : Option Str
  special_instructions : Option Str
  status : Str
deriving DecidableEq

/-- The validated `OrderCreate` / `OrderUpdate` request body. -/
structure OrderCreateIn where
  code : Str
  utilities : List Str
  reason : Str
  requested_for : Option Str
  special_instructions : Option Str
deriving DecidableEq

/-- The `OrderCreateResponse` body. -/
structure CreateResult where
  linear_id : Option Str
  error : Option Str
deriving DecidableEq

/-- `order.special_instructions.strip() if order.special_instructions else None`. -/
def pyStripOpt (o : Option Str) : Option Str :=
  match o with
  | none => none
  | some s => if s.isEmpty then none else some (pyStrip s)

/-- `INSERT ... ON CONFLICT (linear_id) DO NOTHING`. -/
def insertSuborderIfAbsent (db : List SuborderRow) (row : SuborderRow) : List SuborderRow :=
  if db.any (fun r => r.linear_id = row.linear_id) then db else db ++ [row]

/-- The `portal."order"` row create_order inserts at the end of a
successful run (status `TODO`, the request's new field values, the created
issue's id as `linear_id`). -/
def createOrderRow (inp : OrderCreateIn) (orderId requestedAt : Str)
    (issueId : Option Str) : OrderRow :=
  { id := orderId, linear_id := issueId, yardi_id := inp.code,
    utilities := fmtUtilities inp.utilities, reason := inp.reason,
    requested_at := requestedAt, requested_for := inp.requested_for,
    special_instructions := pyStripOpt inp.special_instructions,
    status := ("TODO").data }

/-- `create_order` from main.py as a state transformer over the two tables.
External inputs are explicit: the property lookup result, the generated
order id and timestamp, the tracker's response to the parent issue-create
call, and one response per child issue-create call (the metadata-comment
call's response is read by the code but never used, so it is omitted).
An error payload on the parent issue-create call returns before any table
write; child rows are eagerly inserted with status literal `BACKLOG`; only
at the very end is the order row inserted with status `TODO`. -/
def createOrder (inp : OrderCreateIn) (prop : Option PropDetails)
    (orderId requestedAt : Str) (mainResp : TrackerResp) (subResps : List TrackerResp)
    (orders : List OrderRow) (suborders : List SuborderRow) :
    CreateResult × List OrderRow × List SuborderRow :=
  match prop with
  | none =>
    ({ linear_id := none, error := some (("Property not found: ").data ++ inp.code) },
      orders, suborders)
  | some _ =>
    match mainResp with
    | .errs m =>
      ({ linear_id := none, error := some (m.getD (("Unknown error").data)) },
        orders, suborders)
    | .ok issueId =>
      let suborders' := (inp.utilities.zip subResps).foldl (fun db ur =>
        match ur.2 with
        | .ok (some sid) =>
          if sid.isEmpty then db
          else insertSuborderIfAbsent db
            { linear_id := sid, order_linear_id := issueId,
              utilities := fmtUtilities [ur.1], provider := ("?").data,
              scheduled_for := inp.requested_for, status := ("BACKLOG").data }
        | _ => db) suborders
      let orders' := orders ++ [createOrderRow inp orderId requestedAt issueId]
      ({ linear_id := none, error := none }, orders', suborders')

/-- The per-issue upsert row of
scripts/mirror_suborders_from_linear_to_db.py (the batch refresh): skip
when no parent or unparseable title, else build the same projection row as
the webhook. -/
def refreshSuborderRow (linearId title description : Str) (parent : Option Str)
    (stateName : Option Str) (labelNames : List Str) : Option SuborderRow :=
  match parent with
  | none => none
  | some olid =>
    match parseSuborderTitle title with
    | none => none
    | some (us, prov) =>
      some { linear_id := linearId, order_linear_id := some olid,
             utilities := fmtUtilities us, provider := prov,
             scheduled_for := parseScheduledFor description,
             status := getSuborderStatus (stateName.getD (("Todo").data)) labelNames }

end CurrentBe

namespace CurrentBe

/-- Claim C1: when the property resolves but the tracker's parent
issue-create call returns an error payload, create_order returns an error
result and neither the order table nor the suborder table changes — in
particular no Order row is written. -/
theorem c1_create_order_atomic :
    ∀ (inp : OrderCreateIn) (p : PropDetails) (orderId requestedAt : Str)
      (m : Option Str) (subResps : List TrackerResp)
      (orders : List OrderRow) (suborders : List SuborderRow),
      (createOrder inp (some p) orderId requestedAt (.errs m) subResps orders suborders).1.error
          = some (m.getD (("Unknown error").data))
      ∧ (createOrder inp (some p) orderId requestedAt (.errs m) subResps orders suborders).2.1
          = orders
      ∧ (createOrder inp (some p) orderId requestedAt (.errs m) subResps orders suborders).2.2
          = suborders :=
  fun _ _ _ _ _ _ _ _ => ⟨rfl, rfl, rfl⟩

theorem getSuborderStatus_mem (s : Str) (l : List Str) :
    getSuborderStatus s l ∈ suborderStatusList := by
  unfold getSuborderStatus suborderStatusList
  split_ifs <;> simp

theorem mem_upsert {db : List SuborderRow} {row r : SuborderRow}
    (hr : r ∈ upsertSuborder db row) : r ∈ db ∨ r = row := by
  unfold upsertSuborder at hr
  by_cases h : db.any (fun x => decide (x.linear_id = row.linear_id)) = true
  · rw [if_pos h] at hr
    rcases List.mem_map.mp hr with ⟨x, hx, hfx⟩
    by_cases hk : x.linear_id = row.linear_id
    · right; rw [← hfx, if_pos hk]
    · left; rw [← hfx, if_neg hk]; exact hx
  · rw [if_neg h] at hr
    rcases List.mem_append.mp hr with h1 | h1
    · exact Or.inl h1
    · right; simpa using h1

/-- Sample inputs for the C9 counterexample. -/
def c9SampleIn : OrderCreateIn :=
  { code := ("p100").data, utilities := [("ELECTRIC").data],
    reason := ("ACQUISITION").data, requested_for := none, special_instructions := none }

def c9SampleProp : PropDetails :=
  { propify_id := ("11").data, code := ("p100").data, street := ("1 Main St").data,
    city := ("Denver").data, state := ("CO").data, zip := ("80202").data,
    lat := none, lng := none, county := none, status := none, type := none,
    year_built := none, acquisition_date := none, occupancy := none }

/-- Claim C9 (counterexample): the eager insert during Order creation
writes the suborder projection row with the status literal `BACKLOG`,
which is not a member of the derived status enum. -/
theorem c9_status_enum_counterexample :
    ((createOrder c9SampleIn (some c9SampleProp) (("20250101-001").data)
        (("2025-01-01T00:00:00Z").data) (.ok (some (("ord-1").data)))
        [.ok (some (("sub-1").data))] [] []).2.2.map (fun r => r.status))
      = [("BACKLOG").data]
    ∧ ("BACKLOG").data ∉ suborderStatusList := ⟨by decide, by decide⟩

/-- Claim C9 (amended): `get_suborder_status` always lands in the derived
enum, so every row the webhook upsert writes (any row of the table after
the webhook that was not already there) and every row the batch refresh
builds has a status in the enum; the eager insert during Order creation
instead writes the out-of-enum placeholder `BACKLOG`. -/
theorem c9_status_enum_amended :
    (∀ (stateName : Str) (labelNames : List Str),
        getSuborderStatus stateName labelNames ∈ suborderStatusList)
    ∧ (∀ (ev : WebhookEvent) (db : List SuborderRow),
        ∀ r ∈ (linearWebhook ev db).2, r ∈ db ∨ r.status ∈ suborderStatusList)
    ∧ (∀ (linearId title description : Str) (parent : Option Str)
        (stateName : Option Str) (labelNames : List Str) (row : SuborderRow),
        refreshSuborderRow linearId title description parent stateName labelNames = some row →
        row.status ∈ suborderStatusList) := by
  refine ⟨getSuborderStatus_mem, ?_, ?_⟩
  · intro ev db r hr
    rcases linearWebhook_cases ev db with hc | hc | ⟨row, hc, _, hst⟩
    · rw [hc] at hr; exact Or.inl hr
    · rw [hc] at hr; exact Or.inl (List.mem_of_mem_filter hr)
    · rw [hc] at hr
      rcases mem_upsert hr with h1 | h1
      · exact Or.inl h1
      · right; rw [h1, hst]; exact getSuborderStatus_mem _ _
  · intro linearId title description parent stateName labelNames row h
    cases parent with
    | none => simp [refreshSuborderRow] at h
    | some olid =>
      cases hparse : parseSuborderTitle title with
      | none => simp [refreshSuborderRow, hparse] at h
      | some pr =>
        simp [refreshSuborderRow, hparse] at h
        rw [← h]
        exact getSuborderStatus_mem _ _

/-- Witness for C9 (amended): concrete instances of each conjunct — a
derived status, a webhook-written row, and a batch-refresh row, each landing
in the enum. -/
theorem c9_status_enum_amended_witness :
    getSuborderStatus (("Done").data) [] ∈ suborderStatusList
    ∧ ({ linear_id := ("sub-5").data, order_linear_id := some (("ord-5").data),
         utilities := ("[ELECTRIC]").data, provider := ("?").data, scheduled_for := none,
         status := ("DONE").data : SuborderRow } ∈ ([] : List SuborderRow)
        ∨ ({ linear_id := ("sub-5").data, order_linear_id := some (("ord-5").data),
             utilities := ("[ELECTRIC]").data, provider := ("?").data, scheduled_for := none,
             status := ("DONE").data : SuborderRow }).status ∈ suborderStatusList)
    ∧ ({ linear_id := ("sub-5").data, order_linear_id := some (("ord-5").data),
         utilities := ("[ELECTRIC]").data, provider := ("?").data, scheduled_for := none,
         status := ("DONE").data : SuborderRow }).status ∈ suborderStatusList := by
  refine ⟨c9_status_enum_amended.1 (("Done").data) [], ?_, ?_⟩
  · exact c9_status_enum_amended.2.1
      { eventType := some ("Issue").data
        action := some ("update").data
        data :=
          { id := ("sub-5").data
            projectId := some subordersProjectId
            title := ("Activate E via ?").data
            description := []
            parent := some (("ord-5").data)
            stateName := some ("Done").data
            labelNames := [] } }
      [] _ (by decide)
  · exact c9_status_enum_amended.2.2 (("sub-5").data) (("Activate E via ?").data) []
      (some (("ord-5").data)) (some ("Done").data) [] _ (by decide)

end CurrentBe

namespace CurrentBe

/-! ## Order update (main.py: update_order) -/

/-- The fields update_order's `issueUpdate` mutation input can carry. -/
structure IssueUpdateInput where
  title : Option Str
  description : Option Str
  priority : Option Nat
  dueDate : Option (Option Str)
deriving DecidableEq

/-- The `variables["input"]` that update_order sends on the issueUpdate
mutation: the recomputed title, the priority (1 iff `requested_for is None`),
and the dueDate — and no description key at all. -/
def updateOrderIssueInput (street : Str) (inp : OrderCreateIn) : IssueUpdateInput :=
  { title := some (mkOrderTitle street inp.reason inp.utilities)
    description := none
    priority := some (if inp.requested_for = none then 1 else 0)
    dueDate := some inp.requested_for }

/-- A comment fetched from the mirrored issue. -/
structure CommentRec where
  id : Str
  body : Str
deriving DecidableEq

/-- The action update_order takes on the metadata comment. -/
inductive CommentAction where
  | updateC (commentId : Str) (body : Str)
  | createC (body : Str)
deriving DecidableEq

/-- A comment holding the metadata block: its body contains
`Order Metadata` or the legacy `Portal Data`. -/
def hasMetadataHeader (c : CommentRec) : Bool :=
  containsSub ("Order Metadata").data c.body || containsSub ("Portal Data").data c.body

/-- update_order's metadata-comment handling: update the first comment with
a metadata header in place, else create a new comment. -/
def metadataCommentAction (comments : List CommentRec) (body : Str) : CommentAction :=
  match comments.find? hasMetadataHeader with
  | some c => .updateC c.id body
  | none => .createC body

/-- What a successful update_order pushes to the tracker. -/
structure UpdatePush where
  issueInput : IssueUpdateInput
  commentAction : CommentAction
deriving DecidableEq

/-- The tracker-side writes of update_order for an order whose property
resolves to `street`, with the stored `requested_at` and the issue's
fetched comment list: the issueUpdate input and the metadata-comment
action carrying the freshly recomputed metadata block. -/
def updateOrderPush (orderId street : Str) (inp : OrderCreateIn)
    (requestedAt : Str) (comments : List CommentRec) : UpdatePush :=
  { issueInput := updateOrderIssueInput street inp
    commentAction := metadataCommentAction comments
      (buildOrderMetadataComment orderId inp.code inp.utilities inp.reason requestedAt
        inp.requested_for (pyStripOpt inp.special_instructions)) }

/-- Sample update input for the C8 counterexample. -/
def c8SampleIn : OrderCreateIn :=
  { code := ("p100").data, utilities := [("ELECTRIC").data],
    reason := ("ACQUISITION").data, requested_for := none, special_instructions := none }

/-- Claim C8 (counterexample): the issue-update call of update_order does
carry the recomputed title, but carries no description at all — the
`input` dict has no description key — refuting the claim that both the
recomputed title and description are pushed. -/
theorem c8_update_push_counterexample :
    ((updateOrderPush (("20250101-001").data) (("1 Main St").data) c8SampleIn
        (("2025-01-01T00:00:00Z").data) []).issueInput.title
      = some (("[1 Main St] Acquisition (E)").data))
    ∧ ((updateOrderPush (("20250101-001").data) (("1 Main St").data) c8SampleIn
        (("2025-01-01T00:00:00Z").data) []).issueInput.description = none) :=
  ⟨by decide, rfl⟩

/-- Claim C8 (amended): a successful update recomputes the title from the
new input and pushes it (with priority and due date) on the issue-update
call, which carries no description; and it recomputes the metadata block
from the new input and updates the first metadata comment in place when one
exists, else creates one. -/
theorem c8_update_push_amended :
    ∀ (orderId street : Str) (inp : OrderCreateIn) (requestedAt : Str)
      (comments : List CommentRec),
      ((updateOrderPush orderId street inp requestedAt comments).issueInput
          = { title := some (mkOrderTitle street inp.reason inp.utilities),
              description := none,
              priority := some (if inp.requested_for = none then 1 else 0),
              dueDate := some inp.requested_for })
      ∧ (comments.find? hasMetadataHeader = none →
          (updateOrderPush orderId street inp requestedAt comments).commentAction
            = .createC (buildOrderMetadataComment orderId inp.code inp.utilities inp.reason
                requestedAt inp.requested_for (pyStripOpt inp.special_instructions)))
      ∧ (∀ c, comments.find? hasMetadataHeader = some c →
          (updateOrderPush orderId street inp requestedAt comments).commentAction
            = .updateC c.id (buildOrderMetadataComment orderId inp.code inp.utilities inp.reason
                requestedAt inp.requested_for (pyStripOpt inp.special_instructions))) := by
  intro orderId street inp requestedAt comments
  refine ⟨rfl, ?_, ?_⟩
  · intro h
    simp [updateOrderPush, metadataCommentAction, h]
  · intro c h
    simp [updateOrderPush, metadataCommentAction, h]

/-- Witness for C8 (amended) at a concrete update with one metadata
comment on file: the issue input is the recomputed one and the existing
comment is updated in place. -/
theorem c8_update_push_amended_witness :
    ((updateOrderPush (("20250101-001").data) (("1 Main St").data) c8SampleIn
        (("2025-01-01T00:00:00Z").data)
        [{ id := ("cmt-1").data, body := ("+++ **Order Metadata**").data }]).commentAction
      = .updateC (("cmt-1").data)
          (buildOrderMetadataComment (("20250101-001").data) c8SampleIn.code
            c8SampleIn.utilities c8SampleIn.reason (("2025-01-01T00:00:00Z").data)
            c8SampleIn.requested_for (pyStripOpt c8SampleIn.special_instructions))) :=
  (c8_update_push_amended (("20250101-001").data) (("1 Main St").data) c8SampleIn
      (("2025-01-01T00:00:00Z").data)
      [{ id := ("cmt-1").data, body := ("+++ **Order Metadata**").data }]).2.2
    { id := ("cmt-1").data, body := ("+++ **Order Metadata**").data } (by decide)

end CurrentBe

namespace CurrentBe

/-! ## Metadata block codec
(encoder: scripts/mirror_orders_from_db_to_linear.py build_linear_description;
decoder: scripts/sync_portal.py REFRESH_SQL) -/

/-- `build_linear_description` from scripts/mirror_orders_from_db_to_linear.py:
the `**Portal Data**` fenced key:value block (also the description the
reconciliation sweep expects on the mirrored issue).  Absent optional
values render as the `null` sentinel. -/
def buildPortalDataBlock (orderId yardiId : Str) (utilities : List Str) (reason : Str)
    (isUrgent : Bool) (requestedAt : Str)
    (requestedFor specialInstructions : Option Str) : Str :=
  ("+++ **Portal Data**\n\n```\ntype: Order\nid: ").data ++ orderId
    ++ ("\nrequested_at: ").data ++ requestedAt
    ++ ("\nyardi_id: ").data ++ yardiId
    ++ ("\nutilities: [").data ++ joinSep (", ").data utilities ++ ("]").data
    ++ ("\nreason: ").data ++ reason
    ++ ("\nis_urgent: ").data ++ (if isUrgent then ("true").data else ("false").data)
    ++ ("\nrequested_for: ").data ++ pyOr requestedFor (("null").data)
    ++ ("\nspecial_instructions: ").data ++ pyOr specialInstructions (("null").data)
    ++ ("\n```\n\n+++").data

/-- Attempt the REFRESH_SQL block regex
`\*\*Portal Data\*\*\s*\n+```\s*\n([\s\S]*?)\n``` ` right after a header
occurrence: the whitespace run after the header must end in a newline and
be followed by a literal triple backtick (greedy `\s*\n+` with nothing else
able to match the backtick); after the backticks the greedy `\s*\n`
consumes through the last newline of the following whitespace run; the
lazy capture then runs to the first later `\n``` `. -/
def tryMatchBlock (rest : Str) : Option Str :=
  let run := rest.takeWhile isWs
  let rest1 := rest.dropWhile isWs
  if run.getLast? = some '\n' ∧ ("```").data.isPrefixOf rest1 then
    let rest2 := rest1.drop 3
    let run2 := rest2.takeWhile isWs
    if '\n' ∈ run2 then
      let tailNoNl := run2.reverse.takeWhile (fun c => ¬ c = '\n')
      let afterNl := rest2.drop (run2.length - tailNoNl.length)
      (splitFirst ("\n```").data afterNl).map Prod.fst
    else none
  else none

/-- Regex search: try every `**Portal Data**` occurrence left to right until
the whole pattern matches.  Fuel-based recursion: each step drops at least
the 15-character header, so `length + 1` steps always suffice. -/
def extractPortalDataAux : Nat → Str → Option Str
  | 0, _ => none
  | fuel + 1, s =>
    match splitFirst ("**Portal Data**").data s with
    | none => none
    | some (_, rest) =>
      match tryMatchBlock rest with
      | some c => some c
      | none => extractPortalDataAux fuel rest

/-- `regexp_match(i.description, ...)` of REFRESH_SQL: the first matching
`**Portal Data**` fenced block's captured content. -/
def extractPortalData (s : Str) : Option Str :=
  extractPortalDataAux (s.length + 1) s

/-- One line of the captured block: it aggregates iff it matches
`^\s*[^:]+:`, i.e. contains a colon not at position 0; key is the trimmed
text before the first colon, value the trimmed text after it
(`TRIM` strips spaces). -/
def kvLine (line : Str) : Option (Str × Str) :=
  match splitFirst [':'] line with
  | none => none
  | some (k, v) => if k.isEmpty then none else some (trimSpaces k, trimSpaces v)

/-- The key:value pairs REFRESH_SQL aggregates from a captured block. -/
def parseKVLines (content : Str) : List (Str × Str) :=
  (splitOnChar '\n' content).filterMap kvLine

/-- The full REFRESH_SQL decode: first `**Portal Data**` fenced block,
split into trimmed key:value pairs (`none` when no block matches). -/
def decodePortalData (s : Str) : Option (List (Str × Str)) :=
  (extractPortalData s).map parseKVLines

end CurrentBe

namespace CurrentBe

set_option maxRecDepth 16384 in
/-- Claim C5 (counterexample): the main path's encoder emits the
`**Order Metadata**` header, which the REFRESH_SQL decoder (the only
key:value decode in the code, matching `\*\*Portal Data\*\*` only) does
not recognize — the decode yields no block at all, so the mapping is not
reproduced; moreover the encoder renders an absent `requested_for` as
`ASAP`, not as the `null` sentinel. -/
theorem c5_metadata_roundtrip_counterexample :
    decodePortalData (buildOrderMetadataComment (("20250101-001").data) (("p100").data)
        [("ELECTRIC").data] (("ACQUISITION").data) (("2025-01-01T00:00:00Z").data) none none)
      = none
    ∧ containsSub (("requested_for: ASAP").data)
        (buildOrderMetadataComment (("20250101-001").data) (("p100").data)
          [("ELECTRIC").data] (("ACQUISITION").data) (("2025-01-01T00:00:00Z").data) none none)
        = true := ⟨by decide, by decide⟩

/-! ### Generic lemmas for splitFirst / splitOnChar / trimSpaces -/

theorem splitFirst_at_head {pat t : Str} (h : pat ≠ []) :
    splitFirst pat (pat ++ t) = some ([], t) := by
  cases pat with
  | nil => exact absurd rfl h
  | cons p ps =>
    show splitFirst (p :: ps) (p :: (ps ++ t)) = some ([], t)
    unfold splitFirst
    have hpre : ((p :: ps).isPrefixOf (p :: (ps ++ t))) = true := isPrefixOf_append_self _ t
    rw [hpre]
    have hdrop : (p :: (ps ++ t)).drop (p :: ps).length = t := List.drop_left (p :: ps) t
    simp [hdrop]

theorem splitFirst_cons_not_prefix {pat : Str} {c : Char} {cs : Str}
    (h : pat.isPrefixOf (c :: cs) = false) :
    splitFirst pat (c :: cs) = (splitFirst pat cs).map (fun p => (c :: p.1, p.2)) := by
  have hstep : splitFirst pat (c :: cs)
      = if pat.isPrefixOf (c :: cs) then some ([], (c :: cs).drop pat.length)
        else (splitFirst pat cs).map (fun p => (c :: p.1, p.2)) := rfl
  rw [hstep, h]
  simp

theorem splitFirst_char {c : Char} {a b : Str} (h : ∀ x ∈ a, x ≠ c) :
    splitFirst [c] (a ++ c :: b) = some (a, b) := by
  induction a with
  | nil =>
    have heq : ([] : Str) ++ c :: b = [c] ++ b := rfl
    rw [heq, splitFirst_at_head (by simp)]
  | cons x xs ih =>
    have hx : x ≠ c := h x (by simp)
    have hpre : ([c] : Str).isPrefixOf (x :: (xs ++ c :: b)) = false := by
      simp [List.isPrefixOf]
      exact fun hh => absurd hh.symm hx
    rw [List.cons_append, splitFirst_cons_not_prefix hpre,
      ih (fun y hy => h y (by simp [hy]))]
    rfl

theorem splitOnChar_ne_nil (c : Char) (s : Str) : splitOnChar c s ≠ [] := by
  cases s with
  | nil => simp [splitOnChar]
  | cons x xs =>
    unfold splitOnChar
    cases h : splitOnChar c xs with
    | nil => simp
    | cons hh tt => by_cases hx : x = c <;> simp [hx]

theorem splitOnChar_no_sep {c : Char} {a : Str} (h : ∀ x ∈ a, x ≠ c) :
    splitOnChar c a = [a] := by
  induction a with
  | nil => rfl
  | cons x xs ih =>
    unfold splitOnChar
    rw [ih (fun y hy => h y (by simp [hy]))]
    simp [h x (by simp)]

theorem splitOnChar_append_cons {c : Char} {a b : Str} (h : ∀ x ∈ a, x ≠ c) :
    splitOnChar c (a ++ c :: b) = a :: splitOnChar c b := by
  induction a with
  | nil =>
    show splitOnChar c (c :: b) = [] :: splitOnChar c b
    have hstep : splitOnChar c (c :: b)
        = match splitOnChar c b with
          | [] => [[]]
          | hh :: tt => if c = c then [] :: hh :: tt else (c :: hh) :: tt := rfl
    rw [hstep]
    cases hb : splitOnChar c b with
    | nil => exact absurd hb (splitOnChar_ne_nil c b)
    | cons hh tt => simp
  | cons x xs ih =>
    rw [List.cons_append]
    have hstep : splitOnChar c (x :: (xs ++ c :: b))
        = match splitOnChar c (xs ++ c :: b) with
          | [] => [[]]
          | hh :: tt => if x = c then [] :: hh :: tt else (x :: hh) :: tt := rfl
    rw [hstep, ih (fun y hy => h y (by simp [hy]))]
    simp [h x (by simp)]

theorem trimSpaces_space_cons (v : Str) : trimSpaces (' ' :: v) = trimSpaces v := rfl

theorem trimSpaces_guarded {a z : Char} (ha : ¬ a = ' ') (hz : ¬ z = ' ') (m : Str) :
    trimSpaces (a :: (m ++ [z])) = a :: (m ++ [z]) := by
  unfold trimSpaces
  have h1 : (a :: (m ++ [z])).dropWhile (fun c => c = ' ') = a :: (m ++ [z]) := by
    rw [List.dropWhile_cons]
    simp [ha]
  rw [h1]
  have h2 : (a :: (m ++ [z])).reverse = z :: (m.reverse ++ [a]) := by simp
  rw [h2]
  have h3 : (z :: (m.reverse ++ [a])).dropWhile (fun c => c = ' ') = z :: (m.reverse ++ [a]) := by
    rw [List.dropWhile_cons]
    simp [hz]
  rw [h3, ← h2, List.reverse_reverse]

theorem all_ne_append {ch : Char} {a b : Str} (ha : ∀ x ∈ a, x ≠ ch)
    (hb : ∀ x ∈ b, x ≠ ch) : ∀ x ∈ a ++ b, x ≠ ch := by
  intro x hx
  rcases List.mem_append.mp hx with h1 | h1
  · exact ha x h1
  · exact hb x h1

theorem all_ne_joinSep {ch : Char} {sep : Str} {us : List Str}
    (hsep : ∀ x ∈ sep, x ≠ ch) (hus : ∀ u ∈ us, ∀ x ∈ u, x ≠ ch) :
    ∀ x ∈ joinSep sep us, x ≠ ch := by
  induction us with
  | nil => intro x hx; simp [joinSep] at hx
  | cons u rest ih =>
    cases rest with
    | nil => exact fun x hx => hus u (by simp) x (by simpa [joinSep] using hx)
    | cons v vs =>
      have : joinSep sep (u :: v :: vs) = u ++ sep ++ joinSep sep (v :: vs) := rfl
      rw [this]
      exact all_ne_append (all_ne_append (hus u (by simp)) hsep)
        (ih (fun w hw => hus w (by simp [hw])))

end CurrentBe

namespace CurrentBe

theorem splitFirst_skip {pat pre t : Str} (hne : pat ≠ [])
    (h : ∀ x ∈ pre, pat.head? ≠ some x) :
    splitFirst pat (pre ++ (pat ++ t)) = some (pre, t) := by
  induction pre with
  | nil => simpa using splitFirst_at_head hne
  | cons x xs ih =>
    cases pat with
    | nil => exact absurd rfl hne
    | cons p ps =>
      have hpx : ¬ p = x := by
        have hx := h x (by simp)
        simp at hx
        exact hx
      have hpre : ((p :: ps).isPrefixOf (x :: (xs ++ ((p :: ps) ++ t)))) = false := by
        simp [List.isPrefixOf, hpx]
      rw [List.cons_append, splitFirst_cons_not_prefix hpre,
        ih (fun y hy => h y (by simp [hy]))]
      rfl

theorem splitFirst_nl_ticks {content t : Str} (h : ∀ c ∈ content, c ≠ '`') :
    splitFirst (("\n```").data) (content ++ (("\n```").data ++ t)) = some (content, t) := by
  induction content with
  | nil => simpa using splitFirst_at_head (by decide)
  | cons c cs ih =>
    have hpre : ((("\n```").data).isPrefixOf (c :: (cs ++ (("\n```").data ++ t)))) = false := by
      by_cases hc : c = '\n'
      · subst hc
        cases cs with
        | nil => simp [List.isPrefixOf]
        | cons d ds =>
          have hd : ¬ '`' = d := fun hh => h d (by simp) hh.symm
          simp [List.isPrefixOf, hd]
      · have hcc : ¬ '\n' = c := fun hh => hc hh.symm
        simp [List.isPrefixOf, hcc]
    rw [List.cons_append, splitFirst_cons_not_prefix hpre,
      ih (fun y hy => h y (by simp [hy]))]
    rfl

theorem kvLine_std {key value : Str} (hk : ¬ key.isEmpty = true) (hkc : ∀ c ∈ key, c ≠ ':')
    (hkt : trimSpaces key = key) (hv : trimSpaces value = value) :
    kvLine (key ++ (':' :: (' ' :: value))) = some (key, value) := by
  unfold kvLine
  rw [splitFirst_char hkc]
  simp [hk, hkt, trimSpaces_space_cons, hv]

end CurrentBe

namespace CurrentBe

/-- A field value that survives the block round-trip unchanged: no newline
(it would break the line), no backtick (it would end the fence early), and
stable under space-trimming (`TRIM` would alter it). -/
abbrev CleanValue (s : Str) : Prop :=
  (∀ c ∈ s, c ≠ '\n') ∧ (∀ c ∈ s, c ≠ '`') ∧ trimSpaces s = s

abbrev CleanOptValue (o : Option Str) : Prop := ∀ s, o = some s → CleanValue s

theorem all_ne_cons {ch c : Char} (hc : c ≠ ch) {b : Str} (hb : ∀ x ∈ b, x ≠ ch) :
    ∀ x ∈ c :: b, x ≠ ch := by
  intro x hx
  rcases List.mem_cons.mp hx with h1 | h1
  · rw [h1]; exact hc
  · exact hb x h1

theorem tryMatchBlock_std {c0 : Char} {cs0 t2 : Str} (hws : isWs c0 = false)
    (hbt : ∀ c ∈ c0 :: cs0, c ≠ '`') :
    tryMatchBlock ('\n' :: '\n' :: '`' :: '`' :: '`' :: '\n' ::
        ((c0 :: cs0) ++ (("\n```").data ++ t2))) = some (c0 :: cs0) := by
  unfold tryMatchBlock
  simp only [isWs] at hws
  simp [List.takeWhile_cons, List.dropWhile_cons, List.cons_append, isWs, hws]
  refine ⟨t2, ?_⟩
  have hb : c0 :: (cs0 ++ '\n' :: '`' :: '`' :: '`' :: t2)
      = (c0 :: cs0) ++ (("\n```").data ++ t2) := by simp
  rw [hb]
  exact splitFirst_nl_ticks hbt

/-- Claim C5 (amended): the key:value block decoder recognizes only the
`**Portal Data**` header, so the round-trip law holds for the Portal-Data
encoder (the mirror script's `build_linear_description`): for every order
metadata mapping whose values contain no newline or backtick and are
trim-stable, encoding and then decoding reproduces the original mapping as
trimmed key:value strings — absent optional values rendered and returned
as the literal `null` sentinel (the SQL returns the string; absence is the
consumer's reading of it), lists rendered as `[item1, item2]`, keys in the
fixed emission order.  The main path's `**Order Metadata**` encoder's
output is not decoded at all, and it renders absent `requested_for` as
`ASAP` (see the counterexample). -/
theorem c5_metadata_roundtrip_amended :
    ∀ (orderId yardiId requestedAt reason : Str) (utilities : List Str) (isUrgent : Bool)
      (requestedFor specialInstructions : Option Str),
      CleanValue orderId → CleanValue yardiId → CleanValue requestedAt → CleanValue reason →
      (∀ u ∈ utilities, (∀ c ∈ u, c ≠ '\n') ∧ (∀ c ∈ u, c ≠ '`')) →
      CleanOptValue requestedFor → CleanOptValue specialInstructions →
      decodePortalData (buildPortalDataBlock orderId yardiId utilities reason isUrgent
          requestedAt requestedFor specialInstructions)
        = some [((("type").data), ("Order").data),
                ((("id").data), orderId),
                ((("requested_at").data), requestedAt),
                ((("yardi_id").data), yardiId),
                ((("utilities").data), '[' :: (joinSep ((", ").data) utilities ++ ("]").data)),
                ((("reason").data), reason),
                ((("is_urgent").data), if isUrgent then ("true").data else ("false").data),
                ((("requested_for").data), pyOr requestedFor (("null").data)),
                ((("special_instructions").data), pyOr specialInstructions (("null").data))] := by
  intro orderId yardiId requestedAt reason utilities isUrgent requestedFor specialInstructions
  intro hOid hYid hRat hRsn hUtil hRf hSi
  -- rendered optional values and the utilities value
  set U : Str := '[' :: (joinSep ((", ").data) utilities ++ ("]").data) with hU
  set RF : Str := pyOr requestedFor (("null").data) with hRF
  set SI : Str := pyOr specialInstructions (("null").data) with hSI
  set URG : Str := (if isUrgent then ("true").data else ("false").data) with hURG
  -- cleanliness of the rendered values
  have hUnl : ∀ c ∈ U, c ≠ '\n' := by
    intro c hc
    rw [hU] at hc
    rcases (by simpa using hc : c = '[' ∨ c ∈ joinSep ((", ").data) utilities ∨ c = ']') with
      h1 | h1 | h1
    · subst h1; decide
    · exact all_ne_joinSep (by decide) (fun u hu => (hUtil u hu).1) c h1
    · subst h1; decide
  have hUbt : ∀ c ∈ U, c ≠ '`' := by
    intro c hc
    rw [hU] at hc
    rcases (by simpa using hc : c = '[' ∨ c ∈ joinSep ((", ").data) utilities ∨ c = ']') with
      h1 | h1 | h1
    · subst h1; decide
    · exact all_ne_joinSep (by decide) (fun u hu => (hUtil u hu).2) c h1
    · subst h1; decide
  have hUt : trimSpaces U = U := by
    rw [hU]
    exact trimSpaces_guarded (by decide) (by decide) _
  have hRFc : (∀ c ∈ RF, c ≠ '\n') ∧ (∀ c ∈ RF, c ≠ '`') ∧ trimSpaces RF = RF := by
    rw [hRF]
    cases requestedFor with
    | none => exact ⟨by decide, by decide, by decide⟩
    | some s =>
      by_cases hs : s.isEmpty = true
      · simp only [pyOr, hs, if_true]
        exact ⟨by decide, by decide, by decide⟩
      · simp only [pyOr, hs, if_false]
        exact hRf s rfl
  have hSIc : (∀ c ∈ SI, c ≠ '\n') ∧ (∀ c ∈ SI, c ≠ '`') ∧ trimSpaces SI = SI := by
    rw [hSI]
    cases specialInstructions with
    | none => exact ⟨by decide, by decide, by decide⟩
    | some s =>
      by_cases hs : s.isEmpty = true
      · simp only [pyOr, hs, if_true]
        exact ⟨by decide, by decide, by decide⟩
      · simp only [pyOr, hs, if_false]
        exact hSi s rfl
  have hURGc : (∀ c ∈ URG, c ≠ '\n') ∧ (∀ c ∈ URG, c ≠ '`') ∧ trimSpaces URG = URG := by
    rw [hURG]
    cases isUrgent
    · exact ⟨by decide, by decide, by decide⟩
    · exact ⟨by decide, by decide, by decide⟩
  -- the nine lines of the block content
  set l1 : Str := ("type: Order").data with hl1
  set l2 : Str := ("id: ").data ++ orderId with hl2
  set l3 : Str := ("requested_at: ").data ++ requestedAt with hl3
  set l4 : Str := ("yardi_id: ").data ++ yardiId with hl4
  set l5 : Str := ("utilities: ").data ++ U with hl5
  set l6 : Str := ("reason: ").data ++ reason with hl6
  set l7 : Str := ("is_urgent: ").data ++ URG with hl7
  set l8 : Str := ("requested_for: ").data ++ RF with hl8
  set l9 : Str := ("special_instructions: ").data ++ SI with hl9
  set content : Str :=
    l1 ++ '\n' :: (l2 ++ '\n' :: (l3 ++ '\n' :: (l4 ++ '\n' :: (l5 ++ '\n' :: (l6 ++ '\n' ::
      (l7 ++ '\n' :: (l8 ++ '\n' :: l9))))))) with hcontent
  set restA : Str :=
    '\n' :: '\n' :: '`' :: '`' :: '`' :: '\n' ::
      (content ++ (("\n```").data ++ ("\n\n+++").data)) with hrestA
  have hblock : buildPortalDataBlock orderId yardiId utilities reason isUrgent
      requestedAt requestedFor specialInstructions
      = ("+++ ").data ++ (("**Portal Data**").data ++ restA) := by
    rw [hrestA, hcontent, hl1, hl2, hl3, hl4, hl5, hl6, hl7, hl8, hl9, hU, hRF, hSI, hURG]
    simp [buildPortalDataBlock]
  -- per-line cleanliness
  have h1bt : ∀ x ∈ l1, x ≠ '`' := by rw [hl1]; decide
  have h2bt : ∀ x ∈ l2, x ≠ '`' := by rw [hl2]; exact all_ne_append (by decide) hOid.2.1
  have h3bt : ∀ x ∈ l3, x ≠ '`' := by rw [hl3]; exact all_ne_append (by decide) hRat.2.1
  have h4bt : ∀ x ∈ l4, x ≠ '`' := by rw [hl4]; exact all_ne_append (by decide) hYid.2.1
  have h5bt : ∀ x ∈ l5, x ≠ '`' := by rw [hl5]; exact all_ne_append (by decide) hUbt
  have h6bt : ∀ x ∈ l6, x ≠ '`' := by rw [hl6]; exact all_ne_append (by decide) hRsn.2.1
  have h7bt : ∀ x ∈ l7, x ≠ '`' := by rw [hl7]; exact all_ne_append (by decide) hURGc.2.1
  have h8bt : ∀ x ∈ l8, x ≠ '`' := by rw [hl8]; exact all_ne_append (by decide) hRFc.2.1
  have h9bt : ∀ x ∈ l9, x ≠ '`' := by rw [hl9]; exact all_ne_append (by decide) hSIc.2.1
  have hcbt : ∀ x ∈ content, x ≠ '`' := by
    rw [hcontent]
    exact all_ne_append h1bt (all_ne_cons (by decide) (all_ne_append h2bt (all_ne_cons (by decide)
      (all_ne_append h3bt (all_ne_cons (by decide) (all_ne_append h4bt (all_ne_cons (by decide)
      (all_ne_append h5bt (all_ne_cons (by decide) (all_ne_append h6bt (all_ne_cons (by decide)
      (all_ne_append h7bt (all_ne_cons (by decide) (all_ne_append h8bt (all_ne_cons (by decide)
      h9bt)))))))))))))))
  have h1nl : ∀ x ∈ l1, x ≠ '\n' := by rw [hl1]; decide
  have h2nl : ∀ x ∈ l2, x ≠ '\n' := by rw [hl2]; exact all_ne_append (by decide) hOid.1
  have h3nl : ∀ x ∈ l3, x ≠ '\n' := by rw [hl3]; exact all_ne_append (by decide) hRat.1
  have h4nl : ∀ x ∈ l4, x ≠ '\n' := by rw [hl4]; exact all_ne_append (by decide) hYid.1
  have h5nl : ∀ x ∈ l5, x ≠ '\n' := by rw [hl5]; exact all_ne_append (by decide) hUnl
  have h6nl : ∀ x ∈ l6, x ≠ '\n' := by rw [hl6]; exact all_ne_append (by decide) hRsn.1
  have h7nl : ∀ x ∈ l7, x ≠ '\n' := by rw [hl7]; exact all_ne_append (by decide) hURGc.1
  have h8nl : ∀ x ∈ l8, x ≠ '\n' := by rw [hl8]; exact all_ne_append (by decide) hRFc.1
  have h9nl : ∀ x ∈ l9, x ≠ '\n' := by rw [hl9]; exact all_ne_append (by decide) hSIc.1
  -- extraction of the block content
  have hcontenthd : content = 't' :: (("ype: Order").data
      ++ '\n' :: (l2 ++ '\n' :: (l3 ++ '\n' :: (l4 ++ '\n' :: (l5 ++ '\n' :: (l6 ++ '\n' ::
        (l7 ++ '\n' :: (l8 ++ '\n' :: l9)))))))) := by
    rw [hcontent, hl1]
    rfl
  have htm : tryMatchBlock restA = some content := by
    rw [hrestA]
    rw [hcontenthd]
    exact tryMatchBlock_std (by decide) (by rw [← hcontenthd]; exact hcbt)
  have hext : extractPortalData (("+++ ").data ++ (("**Portal Data**").data ++ restA))
      = some content := by
    unfold extractPortalData
    have hsf : splitFirst (("**Portal Data**").data)
        (("+++ ").data ++ (("**Portal Data**").data ++ restA))
        = some (("+++ ").data, restA) := splitFirst_skip (by decide) (by decide)
    simp only [extractPortalDataAux, hsf, htm]
  -- line splitting
  have hlines : splitOnChar '\n' content = [l1, l2, l3, l4, l5, l6, l7, l8, l9] := by
    rw [hcontent, splitOnChar_append_cons h1nl, splitOnChar_append_cons h2nl,
      splitOnChar_append_cons h3nl, splitOnChar_append_cons h4nl,
      splitOnChar_append_cons h5nl, splitOnChar_append_cons h6nl,
      splitOnChar_append_cons h7nl, splitOnChar_append_cons h8nl,
      splitOnChar_no_sep h9nl]
  -- the nine key:value parses
  have hkv1 : kvLine l1 = some ((("type").data), ("Order").data) := by rw [hl1]; decide
  have hkv2 : kvLine l2 = some ((("id").data), orderId) := by
    rw [hl2, show ("id: ").data ++ orderId = ("id").data ++ (':' :: (' ' :: orderId)) from rfl]
    exact kvLine_std (by decide) (by decide) (by decide) hOid.2.2
  have hkv3 : kvLine l3 = some ((("requested_at").data), requestedAt) := by
    rw [hl3, show ("requested_at: ").data ++ requestedAt
      = ("requested_at").data ++ (':' :: (' ' :: requestedAt)) from rfl]
    exact kvLine_std (by decide) (by decide) (by decide) hRat.2.2
  have hkv4 : kvLine l4 = some ((("yardi_id").data), yardiId) := by
    rw [hl4, show ("yardi_id: ").data ++ yardiId
      = ("yardi_id").data ++ (':' :: (' ' :: yardiId)) from rfl]
    exact kvLine_std (by decide) (by decide) (by decide) hYid.2.2
  have hkv5 : kvLine l5 = some ((("utilities").data), U) := by
    rw [hl5, show ("utilities: ").data ++ U = ("utilities").data ++ (':' :: (' ' :: U)) from rfl]
    exact kvLine_std (by decide) (by decide) (by decide) hUt
  have hkv6 : kvLine l6 = some ((("reason").data), reason) := by
    rw [hl6, show ("reason: ").data ++ reason
      = ("reason").data ++ (':' :: (' ' :: reason)) from rfl]
    exact kvLine_std (by decide) (by decide) (by decide) hRsn.2.2
  have hkv7 : kvLine l7 = some ((("is_urgent").data), URG) := by
    rw [hl7, show ("is_urgent: ").data ++ URG
      = ("is_urgent").data ++ (':' :: (' ' :: URG)) from rfl]
    exact kvLine_std (by decide) (by decide) (by decide) hURGc.2.2
  have hkv8 : kvLine l8 = some ((("requested_for").data), RF) := by
    rw [hl8, show ("requested_for: ").data ++ RF
      = ("requested_for").data ++ (':' :: (' ' :: RF)) from rfl]
    exact kvLine_std (by decide) (by decide) (by decide) hRFc.2.2
  have hkv9 : kvLine l9 = some ((("special_instructions").data), SI) := by
    rw [hl9, show ("special_instructions: ").data ++ SI
      = ("special_instructions").data ++ (':' :: (' ' :: SI)) from rfl]
    exact kvLine_std (by decide) (by decide) (by decide) hSIc.2.2
  have hpkv : parseKVLines content
      = [((("type").data), ("Order").data), ((("id").data), orderId),
         ((("requested_at").data), requestedAt), ((("yardi_id").data), yardiId),
         ((("utilities").data), U), ((("reason").data), reason),
         ((("is_urgent").data), URG), ((("requested_for").data), RF),
         ((("special_instructions").data), SI)] := by
    unfold parseKVLines
    rw [hlines]
    simp only [List.filterMap_cons, hkv1, hkv2, hkv3, hkv4, hkv5, hkv6, hkv7, hkv8, hkv9,
      List.filterMap_nil]
  unfold decodePortalData
  rw [hblock, hext, Option.map_some']
  rw [hpkv]

/-- Witness for C5 (amended): a concrete mapping encoded with the
Portal-Data encoder decodes back to exactly the rendered key:value pairs,
absent `requested_for` as the `null` sentinel. -/
theorem c5_metadata_roundtrip_amended_witness :
    decodePortalData (buildPortalDataBlock (("20250101-001").data) (("p100").data)
        [("ELECTRIC").data, ("GAS").data] (("ACQUISITION").data) true
        (("2025-01-01T00:00:00Z").data) none (some (("watch the dog").data)))
      = some [((("type").data), ("Order").data),
              ((("id").data), ("20250101-001").data),
              ((("requested_at").data), ("2025-01-01T00:00:00Z").data),
              ((("yardi_id").data), ("p100").data),
              ((("utilities").data), '[' :: (joinSep ((", ").data)
                  [("ELECTRIC").data, ("GAS").data] ++ ("]").data)),
              ((("reason").data), ("ACQUISITION").data),
              ((("is_urgent").data), ("true").data),
              ((("requested_for").data), ("null").data),
              ((("special_instructions").data), ("watch the dog").data)] := by
  have h := c5_metadata_roundtrip_amended (("20250101-001").data) (("p100").data)
    (("2025-01-01T00:00:00Z").data) (("ACQUISITION").data)
    [("ELECTRIC").data, ("GAS").data] true none (some (("watch the dog").data))
    (by decide) (by decide) (by decide) (by decide) (by decide)
    (by intro s hs; simp at hs) (by intro s hs; cases hs; decide)
  exact h

end CurrentBe

namespace CurrentBe

/-! ## Reconciliation sweep (scripts/mirror_orders_from_db_to_linear.py: sync) -/

/-- The expected title the sweep recomputes for a stored order row with its
property's street: `f"[{street}] {reason_display} ({util_abbrev})"` with
`REASON_DISPLAY.get(reason, reason)` and one `u[0]` letter per parsed
utility. -/
def sweepExpectedTitle (street : Str) (row : OrderRow) : Str :=
  ("[").data ++ street ++ ("] ").data ++ ((reasonDisplayGet row.reason).getD row.reason)
    ++ (" (").data ++ ((parseUtilities row.utilities).map (fun u => u.take 1)).flatten
    ++ (")").data

/-- The expected priority the sweep recomputes: urgent (1) iff the
database-normalized `requested_for` is `None`. -/
def sweepExpectedPriority (row : OrderRow) : Nat :=
  if pyTruthyOpt row.requested_for = none then 1 else 0

/-- The expected due date the sweep recomputes. -/
def sweepExpectedDueDate (row : OrderRow) : Option Str := pyTruthyOpt row.requested_for

/-- The expected description the sweep recomputes: the Portal-Data fenced
block built from the stored row. -/
def sweepExpectedDescription (row : OrderRow) : Str :=
  buildPortalDataBlock row.id row.yardi_id (parseUtilities row.utilities) row.reason
    (pyTruthyOpt row.requested_for = none) row.requested_at (pyTruthyOpt row.requested_for)
    row.special_instructions

/-- The title create_order puts on the mirrored issue. -/
def createIssueTitle (street : Str) (inp : OrderCreateIn) : Str :=
  mkOrderTitle street inp.reason inp.utilities

/-- The priority create_order puts on the mirrored issue:
`1 if order.requested_for is None else 0`. -/
def createIssuePriority (inp : OrderCreateIn) : Nat :=
  if inp.requested_for = none then 1 else 0

/-- The due date create_order puts on the mirrored issue (set only when
`order.requested_for` is truthy). -/
def createIssueDueDate (inp : OrderCreateIn) : Option Str := pyTruthyOpt inp.requested_for

end CurrentBe

namespace CurrentBe

theorem dropWhile_all_false {p : Char → Bool} {l : Str} (h : ∀ x ∈ l, p x = false) :
    l.dropWhile p = l := by
  cases l with
  | nil => rfl
  | cons c cs =>
    rw [List.dropWhile_cons, h c (by simp)]
    simp

theorem pyStrip_space_cons (v : Str) : pyStrip (' ' :: v) = pyStrip v := rfl

theorem stripBrackets_wrap {m : Str} (h : ∀ x ∈ m, (x = '[' || x = ']') = false) :
    stripBrackets ('[' :: (m ++ [']'])) = m := by
  unfold stripBrackets
  have h1 : ('[' :: (m ++ [']'])).dropWhile (fun c => c = '[' || c = ']')
      = (m ++ [']']).dropWhile (fun c => c = '[' || c = ']') := by
    rw [List.dropWhile_cons]
    simp
  rw [h1]
  cases m with
  | nil => decide
  | cons c cs =>
    have hc := h c (by simp)
    have h2 : ((c :: cs) ++ [']']).dropWhile (fun c => c = '[' || c = ']')
        = (c :: cs) ++ [']'] := by
      rw [List.cons_append, List.dropWhile_cons, hc]
      simp
    rw [h2]
    have h3 : ((c :: cs) ++ [']']).reverse = ']' :: (c :: cs).reverse := by simp
    have h4 : ((c :: cs).reverse).dropWhile (fun c => c = '[' || c = ']') = (c :: cs).reverse :=
      dropWhile_all_false (fun x hx => h x (List.mem_reverse.mp hx))
    have h5 : (']' :: (c :: cs).reverse).dropWhile (fun c => c = '[' || c = ']')
        = ((c :: cs).reverse).dropWhile (fun c => c = '[' || c = ']') := by
      rw [List.dropWhile_cons]
      simp
    rw [h3, h5, h4, List.reverse_reverse]

theorem strip_split_space (X : Str) :
    (splitOnChar ',' (' ' :: X)).map pyStrip = (splitOnChar ',' X).map pyStrip := by
  cases hX : splitOnChar ',' X with
  | nil => exact absurd hX (splitOnChar_ne_nil ',' X)
  | cons hh tt =>
    have hstep : splitOnChar ',' (' ' :: X)
        = match splitOnChar ',' X with
          | [] => [[]]
          | hh :: tt => if (' ' : Char) = ',' then [] :: hh :: tt else (' ' :: hh) :: tt := rfl
    rw [hstep, hX]
    show List.map pyStrip (if (' ' : Char) = ',' then [] :: hh :: tt else (' ' :: hh) :: tt)
      = List.map pyStrip (hh :: tt)
    rw [if_neg (show ¬ ((' ' : Char) = ',') by decide)]
    rw [List.map_cons, List.map_cons, pyStrip_space_cons]

theorem utility_token_facts : ∀ t ∈ utilityList,
    (∀ x ∈ t, x ≠ '[') ∧ (∀ x ∈ t, x ≠ ']') ∧ (∀ x ∈ t, x ≠ ',') ∧ pyStrip t = t
    ∧ t ≠ [] := by decide

theorem split_strip_joinSep {us : List Str} (h : ∀ u ∈ us, u ∈ utilityList)
    (hne : us ≠ []) :
    (splitOnChar ',' (joinSep ((", ").data) us)).map pyStrip = us := by
  induction us with
  | nil => exact absurd rfl hne
  | cons u rest ih =>
    have hu := utility_token_facts u (h u (by simp))
    cases rest with
    | nil =>
      show (splitOnChar ',' u).map pyStrip = [u]
      rw [splitOnChar_no_sep hu.2.2.1]
      simp [hu.2.2.2.1]
    | cons v vs =>
      have hstep : joinSep ((", ").data) (u :: v :: vs)
          = u ++ (',' :: (' ' :: joinSep ((", ").data) (v :: vs))) := by
        show u ++ (", ").data ++ joinSep ((", ").data) (v :: vs) = _
        simp
      rw [hstep, splitOnChar_append_cons hu.2.2.1, List.map_cons, hu.2.2.2.1,
        strip_split_space, ih (fun w hw => h w (by simp [hw])) (by simp)]

theorem parseUtilities_roundtrip {us : List Str} (h : ∀ u ∈ us, u ∈ utilityList) :
    parseUtilities (fmtUtilities us) = us := by
  cases us with
  | nil => decide
  | cons u rest =>
    have hjoin_br : ∀ x ∈ joinSep ((", ").data) (u :: rest), (x = '[' || x = ']') = false := by
      intro x hx
      have h1 : x ≠ '[' := all_ne_joinSep (by decide)
        (fun t ht => (utility_token_facts t (h t ht)).1) x hx
      have h2 : x ≠ ']' := all_ne_joinSep (by decide)
        (fun t ht => (utility_token_facts t (h t ht)).2.1) x hx
      simp [h1, h2]
    have hfmt : fmtUtilities (u :: rest)
        = '[' :: (joinSep ((", ").data) (u :: rest) ++ [']']) := rfl
    have hjoin_ne : joinSep ((", ").data) (u :: rest) ≠ [] := by
      have hu := utility_token_facts u (h u (by simp))
      cases rest with
      | nil => exact hu.2.2.2.2
      | cons v vs =>
        show u ++ (", ").data ++ joinSep ((", ").data) (v :: vs) ≠ []
        simp [hu.2.2.2.2]
    unfold parseUtilities
    rw [hfmt]
    simp only [List.isEmpty_cons, Bool.false_eq_true, if_false]
    rw [stripBrackets_wrap hjoin_br]
    cases hj : joinSep ((", ").data) (u :: rest) with
    | nil => exact absurd hj hjoin_ne
    | cons jc jcs =>
      simp only [List.isEmpty_cons, Bool.false_eq_true, if_false]
      rw [← hj, split_strip_joinSep h (by simp)]

def c7SampleIn : OrderCreateIn :=
  { code := ("p100").data, utilities := [("ELECTRIC").data, ("GAS").data],
    reason := ("ACQUISITION").data, requested_for := none, special_instructions := none }

def c7SampleProp : PropDetails :=
  { propify_id := ("11").data, code := ("p100").data, street := ("1 Main St").data,
    city := ("Denver").data, state := ("CO").data, zip := ("80202").data,
    lat := none, lng := none, county := none, status := none, type := none,
    year_built := none, acquisition_date := none, occupancy := none }

set_option maxRecDepth 16384 in
/-- Claim C7 (counterexample): the description the Reconciliation Sweep
recomputes (the Portal-Data fenced block) differs from the description the
Create path actually sets on the mirrored issue (the property-details
markdown from `build_linear_description` in main.py) — and also from the
Order-Metadata comment the Create path attaches — so the sweep's expected
fields are not all equal to the Create path's values. -/
theorem c7_sweep_counterexample :
    sweepExpectedDescription (createOrderRow c7SampleIn (("20250101-001").data)
        (("2025-01-01T00:00:00Z").data) (some (("ord-1").data)))
      ≠ buildLinearDescriptionMain c7SampleProp []
    ∧ sweepExpectedDescription (createOrderRow c7SampleIn (("20250101-001").data)
        (("2025-01-01T00:00:00Z").data) (some (("ord-1").data)))
      ≠ buildOrderMetadataComment (("20250101-001").data) c7SampleIn.code c7SampleIn.utilities
          c7SampleIn.reason (("2025-01-01T00:00:00Z").data) c7SampleIn.requested_for
          (pyStripOpt c7SampleIn.special_instructions) := ⟨by decide, by decide⟩

/-- Claim C7 (amended): for every Order, the expected title, priority and
due date that the Reconciliation Sweep recomputes from the stored row are
exactly the values the Create path put on the mirrored issue (given a
valid reason, utilities from the enum, and no degenerate empty-string
`requested_for`, which the date column cannot hold); the expected
description however is the Portal-Data block, which is not what the
Create path writes (see the counterexample). -/
theorem c7_sweep_create_agree :
    ∀ (inp : OrderCreateIn) (street orderId requestedAt : Str) (issueId : Option Str),
      inp.reason ∈ reasonList →
      (∀ u ∈ inp.utilities, u ∈ utilityList) →
      inp.requested_for ≠ some [] →
      (sweepExpectedTitle street (createOrderRow inp orderId requestedAt issueId)
          = createIssueTitle street inp)
      ∧ (sweepExpectedPriority (createOrderRow inp orderId requestedAt issueId)
          = createIssuePriority inp)
      ∧ (sweepExpectedDueDate (createOrderRow inp orderId requestedAt issueId)
          = createIssueDueDate inp) := by
  intro inp street orderId requestedAt issueId hreason hutil hrf
  have hpq : pyTruthyOpt inp.requested_for = inp.requested_for := by
    cases hh : inp.requested_for with
    | none => rfl
    | some s =>
      cases s with
      | nil => exact absurd hh hrf
      | cons c cs => simp [pyTruthyOpt]
  have hdisp : (reasonDisplayGet inp.reason).getD inp.reason
      = (reasonDisplayGet inp.reason).getD [] := by
    rcases (by simpa [reasonList] using hreason) with h|h|h|h|h|h|h <;> rw [h] <;> rfl
  refine ⟨?_, ?_, ?_⟩
  · show ("[").data ++ street ++ ("] ").data ++ ((reasonDisplayGet inp.reason).getD inp.reason)
        ++ (" (").data
        ++ ((parseUtilities (fmtUtilities inp.utilities)).map (fun u => u.take 1)).flatten
        ++ (")").data
      = ("[").data ++ street ++ ("] ").data ++ ((reasonDisplayGet inp.reason).getD [])
        ++ (" (").data ++ (inp.utilities.map (fun u => u.take 1)).flatten ++ (")").data
    rw [parseUtilities_roundtrip hutil, hdisp]
  · show (if pyTruthyOpt inp.requested_for = none then 1 else 0)
      = (if inp.requested_for = none then 1 else 0)
    rw [hpq]
  · show pyTruthyOpt inp.requested_for = pyTruthyOpt inp.requested_for
    rfl

/-- Witness for C7 (amended) at a concrete order: sweep-recomputed title,
priority and due date all match the create-path values. -/
theorem c7_sweep_create_agree_witness :
    (sweepExpectedTitle (("1 Main St").data) (createOrderRow c7SampleIn
        (("20250101-001").data) (("2025-01-01T00:00:00Z").data) (some (("ord-1").data)))
      = createIssueTitle (("1 Main St").data) c7SampleIn)
    ∧ (sweepExpectedPriority (createOrderRow c7SampleIn (("20250101-001").data)
        (("2025-01-01T00:00:00Z").data) (some (("ord-1").data)))
      = createIssuePriority c7SampleIn)
    ∧ (sweepExpectedDueDate (createOrderRow c7SampleIn (("20250101-001").data)
        (("2025-01-01T00:00:00Z").data) (some (("ord-1").data)))
      = createIssueDueDate c7SampleIn) :=
  c7_sweep_create_agree c7SampleIn (("1 Main St").data) (("20250101-001").data)
    (("2025-01-01T00:00:00Z").data) (some (("ord-1").data))
    (by decide) (by decide) (by decide)


end CurrentBe

namespace CurrentBe

/-! ## Order id generation (main.py: generate_order_id) -/

/-- Lexicographic comparison of strings by code point: Python `<` on `str`,
and the byte-order `ORDER BY` collation of the id column. -/
def strLtb : Str → Str → Bool
  | [], [] => false
  | [], _ :: _ => true
  | _ :: _, [] => false
  | a :: as, b :: bs => if a < b then true else if b < a then false else strLtb as bs

/-- `ORDER BY id DESC LIMIT 1` over the candidate ids. -/
def listStrMax : List Str → Option Str
  | [] => none
  | x :: xs => some (xs.foldl (fun a b => if strLtb a b then b else a) x)

/-- The character of a decimal digit. -/
def digitChar10 (d : Nat) : Char := Char.ofNat (48 + d)

/-- Decimal rendering of a natural number (`str(n)`), fuel-based so it
stays kernel-computable; the fuel always exceeds the argument. -/
def natToStrAux : Nat → Nat → Str
  | 0, _ => []
  | fuel + 1, n =>
    if n < 10 then [digitChar10 n]
    else natToStrAux fuel (n / 10) ++ [digitChar10 (n % 10)]

def natToStr (n : Nat) : Str := natToStrAux (n + 1) n

/-- Python `f"{n:03d}"`: left-pad the decimal rendering to width 3. -/
def pad3 (n : Nat) : Str :=
  if (natToStr n).length < 3 then
    List.replicate (3 - (natToStr n).length) '0' ++ natToStr n
  else natToStr n

/-- `int(s)` on a digit string. -/
def strToNat (s : Str) : Nat := s.foldl (fun a c => a * 10 + (c.toNat - 48)) 0

/-- The sequence of an id: `int(row[0].split("-")[1])`. -/
def seqOfId (id : Str) : Nat := strToNat ((splitOnChar '-' id).getD 1 [])

/-- `generate_order_id` from main.py: among the stored ids, those matching
`LIKE '<today>-%'` are the day's candidates; `ORDER BY id DESC LIMIT 1`
takes the lexicographically greatest; its sequence is parsed, incremented
and rendered as `f"{today}-{next_seq:03d}"` (sequence 1 when the day has
no candidate yet). -/
def generateOrderId (today : Str) (stored : List Str) : Str :=
  let candidates := stored.filter (fun s => (today ++ ['-']).isPrefixOf s)
  match listStrMax candidates with
  | none => today ++ '-' :: pad3 1
  | some m => today ++ '-' :: pad3 (seqOfId m + 1)

end CurrentBe

namespace CurrentBe

theorem natToStrAux_fuel : ∀ (n f1 f2 : Nat), n < f1 → n < f2 →
    natToStrAux f1 n = natToStrAux f2 n := by
  intro n
  induction n using Nat.strong_induction_on with
  | _ n ih =>
    intro f1 f2 h1 h2
    cases f1 with
    | zero => omega
    | succ g1 =>
      cases f2 with
      | zero => omega
      | succ g2 =>
        by_cases hn : n < 10
        · simp [natToStrAux, hn]
        · have hd : n / 10 < n := Nat.div_lt_self (by omega) (by omega)
          simp only [natToStrAux, if_neg hn]
          rw [ih (n / 10) hd g1 g2 (by omega) (by omega)]

theorem strToNat_append_digit (s : Str) (c : Char) :
    strToNat (s ++ [c]) = strToNat s * 10 + (c.toNat - 48) := by
  unfold strToNat
  rw [List.foldl_append]
  rfl

theorem digitChar10_toNat : ∀ d < 10, (digitChar10 d).toNat = 48 + d := by decide

theorem digitChar10_ne_dash : ∀ d < 10, digitChar10 d ≠ '-' := by decide

theorem strToNat_natToStr : ∀ n : Nat, strToNat (natToStr n) = n := by
  intro n
  induction n using Nat.strong_induction_on with
  | _ n ih =>
    show strToNat (natToStrAux (n + 1) n) = n
    by_cases hn : n < 10
    · simp only [natToStrAux, if_pos hn]
      have := digitChar10_toNat n hn
      unfold strToNat
      simp [List.foldl, this]
    · have hd : n / 10 < n := Nat.div_lt_self (by omega) (by omega)
      simp only [natToStrAux, if_neg hn]
      rw [natToStrAux_fuel (n / 10) n (n / 10 + 1) (by omega) (by omega)]
      rw [show natToStrAux (n / 10 + 1) (n / 10) = natToStr (n / 10) from rfl]
      rw [strToNat_append_digit, ih (n / 10) hd]
      have h48 := digitChar10_toNat (n % 10) (Nat.mod_lt _ (by omega))
      omega

theorem strToNat_replicate_zero (z : Nat) (s : Str) :
    strToNat (List.replicate z '0' ++ s) = strToNat s := by
  induction z with
  | zero => rfl
  | succ m ih =>
    rw [List.replicate_succ, List.cons_append]
    show strToNat (List.replicate m '0' ++ s) = strToNat s
    exact ih

theorem strToNat_pad3 (n : Nat) : strToNat (pad3 n) = n := by
  unfold pad3
  by_cases h : (natToStr n).length < 3
  · rw [if_pos h, strToNat_replicate_zero, strToNat_natToStr]
  · rw [if_neg h, strToNat_natToStr]

theorem natToStrAux_digits : ∀ (f n : Nat), ∀ x ∈ natToStrAux f n, ∃ d, d < 10 ∧ x = digitChar10 d := by
  intro f
  induction f with
  | zero => intro n x hx; simp [natToStrAux] at hx
  | succ g ih =>
    intro n x hx
    by_cases hn : n < 10
    · simp only [natToStrAux, if_pos hn] at hx
      exact ⟨n, hn, by simpa using hx⟩
    · simp only [natToStrAux, if_neg hn] at hx
      rcases List.mem_append.mp hx with h1 | h1
      · exact ih (n / 10) x h1
      · exact ⟨n % 10, Nat.mod_lt _ (by omega), by simpa using h1⟩

theorem pad3_no_dash (n : Nat) : ∀ x ∈ pad3 n, x ≠ '-' := by
  intro x hx
  unfold pad3 at hx
  have hdig : ∀ y ∈ natToStr n, y ≠ '-' := by
    intro y hy
    obtain ⟨d, hd, hyd⟩ := natToStrAux_digits (n + 1) n y hy
    rw [hyd]
    exact digitChar10_ne_dash d hd
  by_cases h : (natToStr n).length < 3
  · rw [if_pos h] at hx
    rcases List.mem_append.mp hx with h1 | h1
    · have := List.eq_of_mem_replicate h1
      rw [this]
      decide
    · exact hdig x h1
  · rw [if_neg h] at hx
    exact hdig x hx

theorem seqOfId_mk {today : Str} (h : ∀ x ∈ today, x ≠ '-') (m : Nat) :
    seqOfId (today ++ '-' :: pad3 m) = m := by
  unfold seqOfId
  rw [splitOnChar_append_cons h, splitOnChar_no_sep (pad3_no_dash m)]
  show strToNat (pad3 m) = m
  exact strToNat_pad3 m


theorem natToStr_lt10 {n : Nat} (h : n < 10) : natToStr n = [digitChar10 n] := by
  unfold natToStr
  simp [natToStrAux, h]

theorem natToStr_10_99 {n : Nat} (h1 : 10 ≤ n) (h2 : n < 100) :
    natToStr n = [digitChar10 (n / 10), digitChar10 (n % 10)] := by
  unfold natToStr
  simp only [natToStrAux, if_neg (show ¬ n < 10 by omega)]
  rw [natToStrAux_fuel (n / 10) n (n / 10 + 1) (by omega) (by omega)]
  rw [show natToStrAux (n / 10 + 1) (n / 10) = natToStr (n / 10) from rfl]
  rw [natToStr_lt10 (show n / 10 < 10 by omega)]
  rfl

theorem natToStr_100_999 {n : Nat} (h1 : 100 ≤ n) (h2 : n < 1000) :
    natToStr n = [digitChar10 (n / 100), digitChar10 (n / 10 % 10), digitChar10 (n % 10)] := by
  unfold natToStr
  simp only [natToStrAux, if_neg (show ¬ n < 10 by omega)]
  rw [natToStrAux_fuel (n / 10) n (n / 10 + 1) (by omega) (by omega)]
  rw [show natToStrAux (n / 10 + 1) (n / 10) = natToStr (n / 10) from rfl]
  rw [natToStr_10_99 (show 10 ≤ n / 10 by omega) (show n / 10 < 100 by omega)]
  have hdd : n / 10 / 10 = n / 100 := by
    rw [Nat.div_div_eq_div_mul]
  rw [hdd]
  rfl

theorem pad3_spec {n : Nat} (h1 : 1 ≤ n) (h2 : n ≤ 999) :
    pad3 n = [digitChar10 (n / 100), digitChar10 (n / 10 % 10), digitChar10 (n % 10)] := by
  have hd0 : digitChar10 0 = '0' := by decide
  unfold pad3
  by_cases ha : n < 10
  · rw [natToStr_lt10 ha, show n / 100 = 0 by omega, show n / 10 % 10 = 0 by omega,
      show n % 10 = n by omega, hd0]
    simp [List.replicate]
  · by_cases hb : n < 100
    · rw [natToStr_10_99 (by omega) hb, show n / 100 = 0 by omega,
        show n / 10 % 10 = n / 10 by omega, hd0]
      simp [List.replicate]
    · rw [natToStr_100_999 (by omega) (by omega)]
      simp

theorem strLtb_cons_same (c : Char) (a b : Str) :
    strLtb (c :: a) (c :: b) = strLtb a b := by
  show (if c < c then true else if c < c then false else strLtb a b) = strLtb a b
  rw [if_neg (lt_irrefl c), if_neg (lt_irrefl c)]

theorem digitChar10_lt_iff : ∀ x < 10, ∀ y < 10,
    ((digitChar10 x < digitChar10 y) ↔ x < y) := by decide

theorem strLtb_digit_cons {x y : Nat} (hx : x < 10) (hy : y < 10) (hxy : x < y)
    (a b : Str) : strLtb (digitChar10 x :: a) (digitChar10 y :: b) = true := by
  show (if digitChar10 x < digitChar10 y then true
    else if digitChar10 y < digitChar10 x then false else strLtb a b) = true
  rw [if_pos ((digitChar10_lt_iff x hx y hy).mpr hxy)]

theorem strLtb_digit_cons_false {x y : Nat} (hx : x < 10) (hy : y < 10) (hxy : y < x)
    (a b : Str) : strLtb (digitChar10 x :: a) (digitChar10 y :: b) = false := by
  show (if digitChar10 x < digitChar10 y then true
    else if digitChar10 y < digitChar10 x then false else strLtb a b) = false
  rw [if_neg (by
    intro hlt
    exact absurd ((digitChar10_lt_iff x hx y hy).mp hlt) (by omega)),
    if_pos ((digitChar10_lt_iff y hy x hx).mpr hxy)]

theorem strLtb_pad3_iff {a b : Nat} (ha1 : 1 ≤ a) (ha2 : a ≤ 999) (hb1 : 1 ≤ b)
    (hb2 : b ≤ 999) : strLtb (pad3 a) (pad3 b) = true ↔ a < b := by
  rw [pad3_spec ha1 ha2, pad3_spec hb1 hb2]
  have d2a : a / 100 < 10 := by omega
  have d1a : a / 10 % 10 < 10 := by omega
  have d0a : a % 10 < 10 := by omega
  have d2b : b / 100 < 10 := by omega
  have d1b : b / 10 % 10 < 10 := by omega
  have d0b : b % 10 < 10 := by omega
  by_cases h2 : a / 100 < b / 100
  · rw [strLtb_digit_cons d2a d2b h2]
    exact ⟨fun _ => by omega, fun _ => rfl⟩
  · by_cases h2' : b / 100 < a / 100
    · rw [strLtb_digit_cons_false d2a d2b h2']
      exact ⟨fun hh => by simp at hh, fun hh => absurd hh (by omega)⟩
    · have he2 : a / 100 = b / 100 := by omega
      rw [he2, strLtb_cons_same]
      by_cases h1 : a / 10 % 10 < b / 10 % 10
      · rw [strLtb_digit_cons d1a d1b h1]
        exact ⟨fun _ => by omega, fun _ => rfl⟩
      · by_cases h1' : b / 10 % 10 < a / 10 % 10
        · rw [strLtb_digit_cons_false d1a d1b h1']
          exact ⟨fun hh => by simp at hh, fun hh => absurd hh (by omega)⟩
        · have he1 : a / 10 % 10 = b / 10 % 10 := by omega
          rw [he1, strLtb_cons_same]
          by_cases h0 : a % 10 < b % 10
          · rw [strLtb_digit_cons d0a d0b h0]
            exact ⟨fun _ => by omega, fun _ => rfl⟩
          · by_cases h0' : b % 10 < a % 10
            · rw [strLtb_digit_cons_false d0a d0b h0']
              exact ⟨fun hh => by simp at hh, fun hh => absurd hh (by omega)⟩
            · have he0 : a % 10 = b % 10 := by omega
              rw [he0, strLtb_cons_same]
              show strLtb [] [] = true ↔ a < b
              simp only [strLtb]
              exact ⟨fun hh => by simp at hh, fun hh => absurd hh (by omega)⟩


theorem strLtb_append_common (p a b : Str) : strLtb (p ++ a) (p ++ b) = strLtb a b := by
  induction p with
  | nil => rfl
  | cons c cs ih => rw [List.cons_append, List.cons_append, strLtb_cons_same, ih]

theorem foldMax_spec {today : Str} :
    ∀ (l : List Nat) (a : Nat), 1 ≤ a → a ≤ 999 → (∀ k ∈ l, 1 ≤ k ∧ k ≤ 999) →
    ∃ M, 1 ≤ M ∧ M ≤ 999 ∧ (M = a ∨ M ∈ l) ∧ a ≤ M ∧ (∀ k ∈ l, k ≤ M) ∧
      (l.map (fun k => today ++ '-' :: pad3 k)).foldl
          (fun x y => if strLtb x y then y else x) (today ++ '-' :: pad3 a)
        = today ++ '-' :: pad3 M := by
  have hcommon : ∀ (x y : Nat),
      strLtb (today ++ '-' :: pad3 x) (today ++ '-' :: pad3 y) = strLtb (pad3 x) (pad3 y) := by
    intro x y
    have hx : today ++ '-' :: pad3 x = (today ++ ['-']) ++ pad3 x := by simp
    have hy : today ++ '-' :: pad3 y = (today ++ ['-']) ++ pad3 y := by simp
    rw [hx, hy, strLtb_append_common]
  intro l
  induction l with
  | nil =>
    intro a h1 h2 _
    exact ⟨a, h1, h2, Or.inl rfl, le_refl a, by simp, rfl⟩
  | cons b rest ih =>
    intro a ha1 ha2 hl
    have hb := hl b (by simp)
    by_cases hab : a < b
    · have hstep : (if strLtb (today ++ '-' :: pad3 a) (today ++ '-' :: pad3 b)
          then today ++ '-' :: pad3 b else today ++ '-' :: pad3 a)
          = today ++ '-' :: pad3 b := by
        rw [hcommon, if_pos ((strLtb_pad3_iff ha1 ha2 hb.1 hb.2).mpr hab)]
      obtain ⟨M, hM1, hM2, hMmem, hMge, hMub, hMfold⟩ :=
        ih b hb.1 hb.2 (fun k hk => hl k (by simp [hk]))
      refine ⟨M, hM1, hM2, ?_, by omega, ?_, ?_⟩
      · rcases hMmem with h | h
        · exact Or.inr (by simp [h])
        · exact Or.inr (by simp [h])
      · intro k hk
        rcases List.mem_cons.mp hk with h | h
        · rw [h]; omega
        · exact hMub k h
      · rw [List.map_cons, List.foldl_cons, hstep, hMfold]
    · have hnlt : strLtb (pad3 a) (pad3 b) = false := by
        cases hcase : strLtb (pad3 a) (pad3 b)
        · rfl
        · exact absurd ((strLtb_pad3_iff ha1 ha2 hb.1 hb.2).mp hcase) hab
      have hstep : (if strLtb (today ++ '-' :: pad3 a) (today ++ '-' :: pad3 b)
          then today ++ '-' :: pad3 b else today ++ '-' :: pad3 a)
          = today ++ '-' :: pad3 a := by
        rw [hcommon, hnlt]
        simp
      obtain ⟨M, hM1, hM2, hMmem, hMge, hMub, hMfold⟩ :=
        ih a ha1 ha2 (fun k hk => hl k (by simp [hk]))
      refine ⟨M, hM1, hM2, ?_, hMge, ?_, ?_⟩
      · rcases hMmem with h | h
        · exact Or.inl h
        · exact Or.inr (by simp [h])
      · intro k hk
        rcases List.mem_cons.mp hk with h | h
        · rw [h]; omega
        · exact hMub k h
      · rw [List.map_cons, List.foldl_cons, hstep, hMfold]

/-- Claim C10 (amended): as long as every Order id already stored for the
day has a sequence of at most 999 (so all sequences are three zero-padded
digits and the id column's lexicographic order agrees with numeric order),
generate_order_id returns `<date>-<sequence>` with a sequence strictly
greater than every stored sequence for the day, colliding with none of
them.  Beyond 999 the string `ORDER BY` no longer tracks numeric order
(see the counterexample). -/
theorem c10_orderid_amended :
    ∀ (today : Str) (seqs : List Nat),
      (∀ x ∈ today, x ≠ '-') →
      (∀ k ∈ seqs, 1 ≤ k ∧ k ≤ 999) →
      (∀ k ∈ seqs,
        k < seqOfId (generateOrderId today (seqs.map (fun k => today ++ '-' :: pad3 k))))
      ∧ generateOrderId today (seqs.map (fun k => today ++ '-' :: pad3 k))
          ∉ seqs.map (fun k => today ++ '-' :: pad3 k) := by
  intro today seqs htoday hseqs
  have hfilter : (seqs.map (fun k => today ++ '-' :: pad3 k)).filter
      (fun s => (today ++ ['-']).isPrefixOf s) = seqs.map (fun k => today ++ '-' :: pad3 k) := by
    apply List.filter_eq_self.mpr
    intro s hs
    rcases List.mem_map.mp hs with ⟨k, hk, hkeq⟩
    rw [← hkeq, show today ++ '-' :: pad3 k = (today ++ ['-']) ++ pad3 k from by simp]
    exact isPrefixOf_append_self _ _
  cases seqs with
  | nil =>
    constructor
    · intro k hk
      simp at hk
    · simp
  | cons s rest =>
    obtain ⟨M, hM1, hM2, hMmem, hMge, hMub, hMfold⟩ :=
      @foldMax_spec today rest s (hseqs s (by simp)).1 (hseqs s (by simp)).2
        (fun k hk => hseqs k (by simp [hk]))
    have hgen : generateOrderId today ((s :: rest).map (fun k => today ++ '-' :: pad3 k))
        = today ++ '-' :: pad3 (M + 1) := by
      unfold generateOrderId
      rw [hfilter, List.map_cons]
      show (match listStrMax ((today ++ '-' :: pad3 s)
            :: rest.map (fun k => today ++ '-' :: pad3 k)) with
        | none => today ++ '-' :: pad3 1
        | some m => today ++ '-' :: pad3 (seqOfId m + 1)) = today ++ '-' :: pad3 (M + 1)
      rw [show listStrMax ((today ++ '-' :: pad3 s) :: rest.map (fun k => today ++ '-' :: pad3 k))
          = some ((rest.map (fun k => today ++ '-' :: pad3 k)).foldl
              (fun x y => if strLtb x y then y else x) (today ++ '-' :: pad3 s)) from rfl,
        hMfold]
      show today ++ '-' :: pad3 (seqOfId (today ++ '-' :: pad3 M) + 1)
        = today ++ '-' :: pad3 (M + 1)
      rw [seqOfId_mk htoday]
    constructor
    · intro k hk
      rw [hgen, seqOfId_mk htoday]
      rcases List.mem_cons.mp hk with h | h
      · rw [h]; omega
      · have := hMub k h
        omega
    · rw [hgen]
      intro hmem
      rcases List.mem_map.mp hmem with ⟨k, hk, hkeq⟩
      have hkM : k = M + 1 := by
        have hcg := congrArg seqOfId hkeq
        rwa [seqOfId_mk htoday, seqOfId_mk htoday] at hcg
      have hkub : k ≤ M := by
        rcases List.mem_cons.mp hk with h | h
        · rw [h]; exact hMge
        · exact hMub k h
      omega

/-- Witness for C10 (amended): with sequences 2 and 9 stored for the day,
the generated id's sequence exceeds 9 and the id is fresh. -/
theorem c10_orderid_amended_witness :
    (9 < seqOfId (generateOrderId (("20250101").data)
        ([2, 9].map (fun k => ("20250101").data ++ '-' :: pad3 k))))
    ∧ generateOrderId (("20250101").data)
        ([2, 9].map (fun k => ("20250101").data ++ '-' :: pad3 k))
      ∉ [2, 9].map (fun k => ("20250101").data ++ '-' :: pad3 k) :=
  ⟨(c10_orderid_amended (("20250101").data) [2, 9] (by decide) (by decide)).1 9 (by decide),
   (c10_orderid_amended (("20250101").data) [2, 9] (by decide) (by decide)).2⟩

/-- Claim C10 (counterexample): once a four-digit sequence exists, the
lexicographic `ORDER BY id DESC LIMIT 1` picks `...-999` over `...-1000`,
so generate_order_id returns `20250101-1000` again — an id that already
exists, whose sequence is not strictly greater than every stored one. -/
theorem c10_orderid_counterexample :
    generateOrderId (("20250101").data)
        [("20250101-999").data, ("20250101-1000").data]
      = ("20250101-1000").data
    ∧ ("20250101-1000").data ∈ [("20250101-999").data, ("20250101-1000").data]
    ∧ ¬ (seqOfId (("20250101-1000").data)
        < seqOfId (generateOrderId (("20250101").data)
            [("20250101-999").data, ("20250101-1000").data])) :=
  ⟨by decide, by decide, by decide⟩

end CurrentBe
